import Mathlib

set_option maxHeartbeats 1000000
set_option maxRecDepth 10000
set_option linter.unusedVariables false
set_option linter.unreachableTactic false
set_option linter.unusedTactic false

/-!
Verification of the `dictator-datastar` lint decree.

The development shallowly embeds the Rust sources (`helpers.rs`,
`validation.rs`, `typos.rs`, `modifiers.rs`, `actions.rs`, `config.rs`,
`lib.rs`).  Source text is modelled as a `List Char` (one element per byte of
the original input; all comparisons performed by the code are against ASCII
literals).  Index-advancing loops become well-founded recursions on the
remaining length.  Rust `&str` slicing, which panics when out of bounds, is
modelled by a checked `slice?` returning `Option` in the action-syntax module
(where a reachable panic exists); the tokenizer's slices are modelled with the
clamping `sliceStr` and their in-boundedness is proved separately.
-/

namespace Datastar

/-- Byte-list of a string literal. -/
def str (s : String) : List Char := s.data

/-- Read the byte at index `i`; out-of-range reads return a NUL placeholder.
Every use in the development is guarded by a bounds check, mirroring the
source's checked indexing `bytes[i]` under `i < bytes.len()`. -/
def byteAt (s : List Char) (i : Nat) : Char := s.getD i (Char.ofNat 0)

/-- `is_space` from helpers.rs. -/
def is_space (c : Char) : Bool :=
  c = ' ' ∨ c = '\n' ∨ c = '\t' ∨ c = '\r' ∨ c = '\x0c'

/-- `is_tag_name_char` from helpers.rs. -/
def is_tag_name_char (c : Char) : Bool :=
  ('a' ≤ c ∧ c ≤ 'z') ∨ ('A' ≤ c ∧ c ≤ 'Z') ∨ ('0' ≤ c ∧ c ≤ '9') ∨
    c = '-' ∨ c = ':' ∨ c = '_'

/-- Advance `i` while the current byte satisfies `p` (the ubiquitous
`while idx < bytes.len() && p(bytes[idx]) { idx += 1 }` loop shape). -/
def skipWhile (p : Char → Bool) (s : List Char) (i : Nat) : Nat :=
  if h : i < s.length then
    if p (byteAt s i) then skipWhile p s (i + 1) else i
  else i
termination_by s.length - i
decreasing_by omega

theorem skipWhile_ge (p : Char → Bool) (s : List Char) (i : Nat) :
    i ≤ skipWhile p s i := by
  induction i using skipWhile.induct p s with
  | case1 i h hp ih => rw [skipWhile]; simp [h, hp]; omega
  | case2 i h hp => rw [skipWhile]; simp [h, hp]
  | case3 i h => rw [skipWhile]; simp [h]

theorem skipWhile_le (p : Char → Bool) (s : List Char) (i : Nat)
    (hi : i ≤ s.length) : skipWhile p s i ≤ s.length := by
  induction i using skipWhile.induct p s with
  | case1 i h hp ih => rw [skipWhile]; simp [h, hp]; exact ih (by omega)
  | case2 i h hp => rw [skipWhile]; simpa [h, hp] using hi
  | case3 i h => rw [skipWhile]; simpa [h] using hi

/-- Unchecked (clamping) slice `&s[a..b]`, used where the tokenizer slices;
the development proves all such uses in-bounds. -/
def sliceStr (s : List Char) (a b : Nat) : List Char := (s.drop a).take (b - a)

/-- Checked slice `&s[a..b]`: `none` models a Rust slice-index panic. -/
def slice? (s : List Char) (a b : Nat) : Option (List Char) :=
  if a ≤ b ∧ b ≤ s.length then some ((s.drop a).take (b - a)) else none

/-- `ParsedAttribute` from helpers.rs. -/
structure ParsedAttribute where
  name : List Char
  value : Option (List Char)
  name_start : Nat
  name_end : Nat
  value_start : Option Nat
  value_end : Option Nat
deriving DecidableEq

/-- `ParsedTag` from helpers.rs. -/
structure ParsedTag where
  name : List Char
  attributes : List ParsedAttribute
deriving DecidableEq

/-- `source[start..].find(pat)` reported as an absolute index. -/
def findSubFrom (s : List Char) (pat : List Char) (i : Nat) : Option Nat :=
  if h : i + pat.length ≤ s.length then
    if pat.isPrefixOf (s.drop i) then some i else findSubFrom s pat (i + 1)
  else none
termination_by s.length + 1 - i
decreasing_by omega

theorem findSubFrom_ge (s pat : List Char) (i : Nat) :
    ∀ e, findSubFrom s pat i = some e → i ≤ e := by
  induction i using findSubFrom.induct s pat with
  | case1 i h hp =>
    intro e he; rw [findSubFrom] at he; simp [h, hp] at he; omega
  | case2 i h hp ih =>
    intro e he; rw [findSubFrom] at he; simp [h, hp] at he
    have := ih e he; omega
  | case3 i h =>
    intro e he; rw [findSubFrom] at he; simp [h] at he

/-- `source[start..].find(c)` for a single character, as an absolute index. -/
def findCharFrom (s : List Char) (c : Char) (i : Nat) : Option Nat :=
  if skipWhile (fun b => ¬ b = c) s i < s.length then
    some (skipWhile (fun b => ¬ b = c) s i)
  else none

theorem findCharFrom_ge (s : List Char) (c : Char) (i : Nat) :
    ∀ e, findCharFrom s c i = some e → i ≤ e := by
  intro e he
  rw [findCharFrom] at he
  split at he
  · cases he; exact skipWhile_ge _ s i
  · cases he

/-- Characters that continue an attribute name in `parse_tags`
(`!is_space && != '=' && != '>' && != '/'`). -/
def is_attr_name_char (c : Char) : Bool :=
  ¬ is_space c ∧ ¬ c = '=' ∧ ¬ c = '>' ∧ ¬ c = '/'

/-- Cursor after skipping whitespace that follows an attribute name
(the position where `=` is looked for). -/
def eqPos (s : List Char) (e : Nat) : Nat := skipWhile is_space s e

/-- Cursor after `=` and subsequent whitespace (where a value would start). -/
def valStartPos (s : List Char) (e : Nat) : Nat :=
  skipWhile is_space s (eqPos s e + 1)

/-- End of a quoted value: first occurrence of the opening quote character
after it (or end of input). -/
def quotedEnd (s : List Char) (e : Nat) : Nat :=
  skipWhile (fun c => ¬ c = byteAt s (valStartPos s e)) s (valStartPos s e + 1)

/-- End of an unquoted value: first whitespace or `>` (or end of input). -/
def unquotedEnd (s : List Char) (e : Nat) : Nat :=
  skipWhile (fun c => ¬ is_space c ∧ ¬ c = '>') s (valStartPos s e)

/-- Value-parsing tail of the attribute loop in `parse_tags`: given the name
span `[j, e)`, consume an optional `= value`, returning the attribute record
and the cursor position the loop resumes from. -/
def parseAttrValue (s : List Char) (j e : Nat) : ParsedAttribute × Nat :=
  if eqPos s e < s.length ∧ byteAt s (eqPos s e) = '=' then
    if valStartPos s e < s.length then
      if byteAt s (valStartPos s e) = '"' ∨ byteAt s (valStartPos s e) = '\'' then
        (⟨sliceStr s j e, some (sliceStr s (valStartPos s e + 1) (quotedEnd s e)), j, e,
          some (valStartPos s e + 1), some (quotedEnd s e)⟩,
         if quotedEnd s e < s.length ∧
             byteAt s (quotedEnd s e) = byteAt s (valStartPos s e) then
           quotedEnd s e + 1
         else quotedEnd s e)
      else
        (⟨sliceStr s j e, some (sliceStr s (valStartPos s e) (unquotedEnd s e)), j, e,
          some (valStartPos s e), some (unquotedEnd s e)⟩, unquotedEnd s e)
    else (⟨sliceStr s j e, none, j, e, none, none⟩, valStartPos s e)
  else (⟨sliceStr s j e, none, j, e, none, none⟩, eqPos s e)

theorem eqPos_ge (s : List Char) (e : Nat) : e ≤ eqPos s e :=
  skipWhile_ge _ s e

theorem valStartPos_ge (s : List Char) (e : Nat) : eqPos s e + 1 ≤ valStartPos s e :=
  skipWhile_ge _ s _

theorem quotedEnd_ge (s : List Char) (e : Nat) : valStartPos s e + 1 ≤ quotedEnd s e :=
  skipWhile_ge _ s _

theorem unquotedEnd_ge (s : List Char) (e : Nat) : valStartPos s e ≤ unquotedEnd s e :=
  skipWhile_ge _ s _

theorem parseAttrValue_ge (s : List Char) (j e : Nat) :
    e ≤ (parseAttrValue s j e).2 := by
  have h1 := eqPos_ge s e
  have h2 := valStartPos_ge s e
  have h3 := quotedEnd_ge s e
  have h4 := unquotedEnd_ge s e
  rw [parseAttrValue]
  split_ifs <;> simp <;> omega

/-- Start of an attribute name: cursor after skipping whitespace. -/
def attrStart (s : List Char) (i : Nat) : Nat := skipWhile is_space s i

/-- End of an attribute-name run starting at `attrStart s i`. -/
def attrNameEnd (s : List Char) (i : Nat) : Nat :=
  skipWhile is_attr_name_char s (attrStart s i)

theorem attrStart_ge (s : List Char) (i : Nat) : i ≤ attrStart s i :=
  skipWhile_ge _ s i

theorem attrNameEnd_ge (s : List Char) (i : Nat) : attrStart s i ≤ attrNameEnd s i :=
  skipWhile_ge _ s _

/-- The attribute loop of `parse_tags` (helpers.rs): returns the cursor after
the tag together with the accumulated attributes. -/
def parseAttrs (s : List Char) (i : Nat) (acc : List ParsedAttribute) :
    Nat × List ParsedAttribute :=
  if h : attrStart s i < s.length then
    if byteAt s (attrStart s i) = '>' then (attrStart s i + 1, acc)
    else if byteAt s (attrStart s i) = '/' then
      if attrStart s i + 1 < s.length ∧ byteAt s (attrStart s i + 1) = '>' then
        (attrStart s i + 2, acc)
      else (attrStart s i + 1, acc)
    else
      if _hne : attrNameEnd s i = attrStart s i then
        parseAttrs s (attrStart s i + 1) acc
      else
        parseAttrs s (parseAttrValue s (attrStart s i) (attrNameEnd s i)).2
          (acc ++ [(parseAttrValue s (attrStart s i) (attrNameEnd s i)).1])
  else (attrStart s i, acc)
termination_by s.length - i
decreasing_by
  · have h1 := attrStart_ge s i
    omega
  · have h1 := attrStart_ge s i
    have h2 := attrNameEnd_ge s i
    have h3 := parseAttrValue_ge s (attrStart s i) (attrNameEnd s i)
    omega

theorem parseAttrs_fst_ge (s : List Char) (i : Nat) (acc : List ParsedAttribute) :
    i ≤ (parseAttrs s i acc).1 := by
  induction i, acc using parseAttrs.induct s with
  | case1 i acc h hgt =>
    rw [parseAttrs]
    have h1 := attrStart_ge s i
    simp only [dif_pos h, if_pos hgt]
    omega
  | case2 i acc h hgt hsl hcl =>
    rw [parseAttrs]
    have h1 := attrStart_ge s i
    simp only [dif_pos h, if_neg hgt, if_pos hsl, if_pos hcl]
    omega
  | case3 i acc h hgt hsl hcl =>
    rw [parseAttrs]
    have h1 := attrStart_ge s i
    simp only [dif_pos h, if_neg hgt, if_pos hsl, if_neg hcl]
    omega
  | case4 i acc h hgt hsl hne ih =>
    rw [parseAttrs]
    have h1 := attrStart_ge s i
    simp only [dif_pos h, if_neg hgt, if_neg hsl, dif_pos hne]
    omega
  | case5 i acc h hgt hsl hne ih =>
    rw [parseAttrs]
    have h1 := attrStart_ge s i
    have h2 := attrNameEnd_ge s i
    have h3 := parseAttrValue_ge s (attrStart s i) (attrNameEnd s i)
    simp only [dif_pos h, if_neg hgt, if_neg hsl, dif_neg hne]
    omega
  | case6 i acc h =>
    rw [parseAttrs]
    have h1 := attrStart_ge s i
    simp only [dif_neg h]
    omega

/-- Skip the optional closing-tag marker `/` right after `<`. -/
def skipClosingSlash (s : List Char) (i : Nat) : Nat :=
  if i + 1 < s.length ∧ byteAt s (i + 1) = '/' then i + 2 else i + 1

theorem skipClosingSlash_ge (s : List Char) (i : Nat) :
    i + 1 ≤ skipClosingSlash s i := by
  rw [skipClosingSlash]; split <;> omega

/-- Start of a tag name: cursor after `<`, the optional `/`, and whitespace. -/
def tagNameStart (s : List Char) (i : Nat) : Nat :=
  skipWhile is_space s (skipClosingSlash s i)

/-- End of the tag-name run starting at `tagNameStart s i`. -/
def tagNameEnd (s : List Char) (i : Nat) : Nat :=
  skipWhile is_tag_name_char s (tagNameStart s i)

theorem tagNameStart_ge (s : List Char) (i : Nat) : i + 1 ≤ tagNameStart s i :=
  le_trans (skipClosingSlash_ge s i) (skipWhile_ge _ s _)

theorem tagNameEnd_ge (s : List Char) (i : Nat) : tagNameStart s i ≤ tagNameEnd s i :=
  skipWhile_ge _ s _

/-- Outer scan of `parse_tags` (helpers.rs). -/
def parse_tags_go (s : List Char) (i : Nat) (acc : List ParsedTag) : List ParsedTag :=
  if h : i < s.length then
    if byteAt s i ≠ '<' then parse_tags_go s (i + 1) acc
    else if i + 3 < s.length ∧ byteAt s (i + 1) = '!' ∧ byteAt s (i + 2) = '-' ∧
        byteAt s (i + 3) = '-' then
      match hf : findSubFrom s (str "-->") (i + 4) with
      | some e => parse_tags_go s (e + 3) acc
      | none => acc
    else if tagNameStart s i < s.length ∧
        (byteAt s (tagNameStart s i) = '!' ∨ byteAt s (tagNameStart s i) = '?') then
      match hg : findCharFrom s '>' (tagNameStart s i) with
      | some e2 => parse_tags_go s (e2 + 1) acc
      | none => acc
    else
      if hne : tagNameEnd s i = tagNameStart s i then
        parse_tags_go s (i + 1) acc
      else
        parse_tags_go s (parseAttrs s (tagNameEnd s i) []).1
          (acc ++ [⟨sliceStr s (tagNameStart s i) (tagNameEnd s i),
            (parseAttrs s (tagNameEnd s i) []).2⟩])
  else acc
termination_by s.length - i
decreasing_by
  · omega
  · have h1 := findSubFrom_ge s (str "-->") (i + 4) e hf
    omega
  · have h1 := findCharFrom_ge s '>' (tagNameStart s i) e2 hg
    have h2 := tagNameStart_ge s i
    omega
  · omega
  · have h1 := tagNameStart_ge s i
    have h2 := tagNameEnd_ge s i
    have h3 := parseAttrs_fst_ge s (tagNameEnd s i) []
    omega

/-- `parse_tags` from helpers.rs. -/
def parse_tags (s : List Char) : List ParsedTag := parse_tags_go s 0 []

example :
    parse_tags (str "<div data-show=\"$visible\">Hello</div>") =
      [⟨str "div", [⟨str "data-show", some (str "$visible"), 5, 14, some 16, some 24⟩]⟩,
       ⟨str "div", []⟩] := by
  simp [parse_tags, parse_tags_go, parseAttrs, parseAttrValue, attrStart, attrNameEnd,
    tagNameStart, tagNameEnd, skipClosingSlash, eqPos, valStartPos, quotedEnd, unquotedEnd,
    skipWhile, findSubFrom, findCharFrom, byteAt, sliceStr, str, is_space, is_tag_name_char,
    is_attr_name_char]

/-- `is_datastar_attr` from helpers.rs: `name.starts_with("data-")`. -/
def is_datastar_attr (name : List Char) : Bool := (str "data-").isPrefixOf name

/-- `name.find("__")`: index of the first occurrence of the two-character
modifier delimiter. -/
def findDelim : List Char → Option Nat
  | [] => none
  | [_] => none
  | a :: b :: rest =>
    if a = '_' ∧ b = '_' then some 0 else (findDelim (b :: rest)).map (· + 1)

/-- `base_attr_name` from helpers.rs. -/
def base_attr_name (name : List Char) : List Char :=
  match findDelim name with
  | some p => name.take p
  | none => name

theorem findDelim_bound (s : List Char) :
    ∀ p, findDelim s = some p → p + 2 ≤ s.length := by
  induction s using findDelim.induct with
  | case1 => intro p hp; simp [findDelim] at hp
  | case2 c => intro p hp; simp [findDelim] at hp
  | case3 a b rest h =>
    intro p hp; rw [findDelim, if_pos h] at hp
    cases hp; simp
  | case4 a b rest h ih =>
    intro p hp; rw [findDelim, if_neg h] at hp
    simp at hp
    obtain ⟨q, hq, rfl⟩ := hp
    have := ih q hq
    simp at this ⊢
    omega

theorem findDelim_split (s : List Char) :
    ∀ p, findDelim s = some p →
      s = s.take p ++ '_' :: '_' :: s.drop (p + 2) := by
  induction s using findDelim.induct with
  | case1 => intro p hp; simp [findDelim] at hp
  | case2 c => intro p hp; simp [findDelim] at hp
  | case3 a b rest h =>
    intro p hp; rw [findDelim, if_pos h] at hp
    cases hp
    simp [h.1, h.2]
  | case4 a b rest h ih =>
    intro p hp; rw [findDelim, if_neg h] at hp
    simp at hp
    obtain ⟨q, hq, rfl⟩ := hp
    have := ih q hq
    calc a :: b :: rest = a :: (b :: rest) := rfl
    _ = a :: ((b :: rest).take q ++ '_' :: '_' :: (b :: rest).drop (q + 2)) := by rw [← this]
    _ = (a :: b :: rest).take (q + 1) ++ '_' :: '_' :: (a :: b :: rest).drop (q + 1 + 2) := by
        simp [List.take_succ_cons, List.drop_succ_cons]

/-- Inner loop of `extract_modifiers` (helpers.rs), entered with the text that
follows a delimiter occurrence. -/
def extractModsGo (remaining : List Char) : List (List Char) :=
  match hf : findDelim remaining with
  | none => if remaining = [] then [] else [remaining]
  | some q => remaining.take q :: extractModsGo (remaining.drop (q + 2))
termination_by remaining.length
decreasing_by
  have hb := findDelim_bound remaining q hf
  simp only [List.length_drop]
  omega

theorem extractModsGo_eq_none (remaining : List Char)
    (h : findDelim remaining = none) :
    extractModsGo remaining = if remaining = [] then [] else [remaining] := by
  rw [extractModsGo]
  split
  · rfl
  · rename_i q heq; rw [h] at heq; cases heq

theorem extractModsGo_eq_some (remaining : List Char) (q : Nat)
    (h : findDelim remaining = some q) :
    extractModsGo remaining =
      remaining.take q :: extractModsGo (remaining.drop (q + 2)) := by
  rw [extractModsGo]
  split
  · rename_i heq; rw [h] at heq; cases heq
  · rename_i q' heq; rw [h] at heq; cases heq; rfl

/-- `extract_modifiers` from helpers.rs. -/
def extract_modifiers (name : List Char) : List (List Char) :=
  match findDelim name with
  | none => []
  | some p => extractModsGo (name.drop (p + 2))

example : extract_modifiers (str "data-on:click__debounce.500ms__once") =
    [str "debounce.500ms", str "once"] := by
  simp [extract_modifiers, extractModsGo, findDelim, str]

example : base_attr_name (str "data-on:click__debounce.500ms") = str "data-on:click" := by
  simp [base_attr_name, findDelim, str]

/-- Reassembly of a decomposed name: base followed by each modifier preceded
by the `__` delimiter. -/
def reassemble (name : List Char) : List Char :=
  base_attr_name name ++ ((extract_modifiers name).map (fun m => str "__" ++ m)).flatten

theorem extractModsGo_reassemble (remaining : List Char) :
    ((extractModsGo remaining).map (fun m => str "__" ++ m)).flatten =
        str "__" ++ remaining ∨
    ((extractModsGo remaining).map (fun m => str "__" ++ m)).flatten ++ str "__" =
        str "__" ++ remaining := by
  induction remaining using extractModsGo.induct with
  | case1 hf =>
    rw [extractModsGo_eq_none [] hf]
    simp
  | case2 remaining hf hnil =>
    rw [extractModsGo_eq_none remaining hf, if_neg hnil]
    simp
  | case3 remaining q hf ih =>
    rw [extractModsGo_eq_some remaining q hf]
    have hsplit := findDelim_split remaining q hf
    rcases ih with ih | ih
    · left
      simp only [List.map_cons, List.flatten_cons, ih]
      conv_rhs => rw [hsplit]
      simp [str]
    · right
      simp only [List.map_cons, List.flatten_cons, List.append_assoc, ih]
      conv_rhs => rw [hsplit]
      simp [str]

theorem reassemble_eq_or_drop (name : List Char) :
    reassemble name = name ∨ reassemble name ++ str "__" = name := by
  rw [reassemble, extract_modifiers, base_attr_name]
  cases hf : findDelim name with
  | none => left; simp
  | some p =>
    have hsplit := findDelim_split name p hf
    rcases extractModsGo_reassemble (name.drop (p + 2)) with ih | ih
    · left
      rw [ih]
      conv_rhs => rw [hsplit]
      simp [str]
    · right
      rw [List.append_assoc, ih]
      conv_rhs => rw [hsplit]
      simp [str]

/-- `Span` from the decree ABI: half-open byte range `[start, stop)`. -/
structure Span where
  start : Nat
  stop : Nat
deriving DecidableEq

/-- `Diagnostic` from the decree ABI. -/
structure Diagnostic where
  rule : List Char
  message : List Char
  enforced : Bool
  span : Span
deriving DecidableEq

/-- `DatastarConfig` from config.rs. -/
structure DatastarConfig where
  check_alpine_vue : Bool
  check_required_values : Bool
  check_typos : Bool
  check_modifiers : Bool
  check_actions : Bool
  check_for_template : Bool
deriving DecidableEq

/-- `DatastarConfig::default()`: all checks enabled. -/
def defaultConfig : DatastarConfig := ⟨true, true, true, true, true, true⟩

/-- `str::to_lowercase` restricted to the ASCII tag/attribute names compared
by the code. -/
def toLowercase (s : List Char) : List Char := s.map Char.toLower

/-- `is_alpine_or_vue_attr` from validation.rs. -/
def is_alpine_or_vue_attr (name : List Char) : Bool :=
  (str "x-").isPrefixOf name ∨ (str "x:").isPrefixOf name ∨
    (str "v-").isPrefixOf name ∨ name.head? = some '@' ∨ name.head? = some ':'

/-- `check_alpine_vue` from validation.rs, as the list of diagnostics it
pushes to the sink in attribute order. -/
def check_alpine_vue (tag : ParsedTag) : List Diagnostic :=
  (tag.attributes.map fun attr =>
    if is_alpine_or_vue_attr attr.name then
      [⟨str "datastar/no-alpine-vue-attrs",
        str "Disallowed Alpine/Vue-style attribute: " ++ attr.name, false,
        ⟨attr.name_start, attr.name_end⟩⟩]
    else []).flatten

/-- `requires_value` from validation.rs. -/
def requires_value (name : List Char) : Bool :=
  base_attr_name name = str "data-show" ∨ base_attr_name name = str "data-text" ∨
    base_attr_name name = str "data-html" ∨ base_attr_name name = str "data-class" ∨
    base_attr_name name = str "data-effect" ∨ base_attr_name name = str "data-computed" ∨
    base_attr_name name = str "data-replace-url" ∨
    (str "data-on:").isPrefixOf (base_attr_name name) ∨
    (str "data-attr:").isPrefixOf (base_attr_name name) ∨
    (str "data-class:").isPrefixOf (base_attr_name name) ∨
    (str "data-style:").isPrefixOf (base_attr_name name) ∨
    (str "data-computed:").isPrefixOf (base_attr_name name)

/-- `attr.value.map(|v| !v.is_empty()).unwrap_or(false)` from validation.rs. -/
def attrHasValue (v : Option (List Char)) : Bool :=
  match v with
  | some v => ¬ v = []
  | none => false

/-- `check_required_values` from validation.rs. -/
def check_required_values (tag : ParsedTag) : List Diagnostic :=
  (tag.attributes.map fun attr =>
    if requires_value attr.name ∧ ¬ attrHasValue attr.value then
      [⟨str "datastar/require-value",
        str "Datastar attribute '" ++ attr.name ++ str "' requires a value", false,
        ⟨attr.name_start, attr.name_end⟩⟩]
    else []).flatten

/-- `check_for_on_template` from validation.rs. -/
def check_for_on_template (tag : ParsedTag) : List Diagnostic :=
  (tag.attributes.map fun attr =>
    if attr.name = str "data-for" ∧ ¬ toLowercase tag.name = str "template" then
      [⟨str "datastar/for-template",
        str "data-for must be on a <template> element, found on <" ++ tag.name ++ str ">",
        false, ⟨attr.name_start, attr.name_end⟩⟩]
    else []).flatten

/-- The `TYPOS` table from typos.rs. -/
def TYPOS : List (List Char × List Char) :=
  [(str "data-on-click", str "data-on:click"),
   (str "data-on-submit", str "data-on:submit"),
   (str "data-on-input", str "data-on:input"),
   (str "data-on-change", str "data-on:change"),
   (str "data-on-keydown", str "data-on:keydown"),
   (str "data-on-keyup", str "data-on:keyup"),
   (str "data-on-focus", str "data-on:focus"),
   (str "data-on-blur", str "data-on:blur"),
   (str "data-on-mouseenter", str "data-on:mouseenter"),
   (str "data-on-mouseleave", str "data-on:mouseleave"),
   (str "data-bind-value", str "data-bind:value"),
   (str "data-bind-checked", str "data-bind:checked"),
   (str "data-attr-disabled", str "data-attr:disabled"),
   (str "data-attr-href", str "data-attr:href"),
   (str "data-class-active", str "data-class:active"),
   (str "data-style-color", str "data-style:color"),
   (str "data-intersects", str "data-on-intersect"),
   (str "data-intersect", str "data-on-intersect"),
   (str "data-onload", str "data-on:load or data-init"),
   (str "data-onclick", str "data-on:click"),
   (str "data-onsubmit", str "data-on:submit"),
   (str "data-signal", str "data-signals"),
   (str "data-visible", str "data-show"),
   (str "data-hidden", str "data-show (with negation)"),
   (str "data-content", str "data-text or data-html"),
   (str "data-value", str "data-bind"),
   (str "data-model", str "data-bind"),
   (str "data-if", str "data-show"),
   (str "data-else", str "data-show (with negation)"),
   (str "data-v-show", str "data-show"),
   (str "data-v-if", str "data-show"),
   (str "data-x-show", str "data-show"),
   (str "data-x-if", str "data-show")]

/-- `is_valid_hyphen_event` from typos.rs. -/
def is_valid_hyphen_event (name : List Char) : Bool :=
  name = str "data-on-intersect" ∨ name = str "data-on-interval" ∨
    name = str "data-on-signal-patch" ∨ name = str "data-on-raf" ∨
    name = str "data-on-resize" ∨ name = str "data-on-load"

/-- `check_prefix_separator` from typos.rs. -/
def check_prefix_separator (attr : ParsedAttribute) (wrong correct : List Char) :
    List Diagnostic :=
  if wrong.isPrefixOf (base_attr_name attr.name) then
    [⟨str "datastar/typo",
      str "Use colon separator: '" ++ correct ++ (base_attr_name attr.name).drop wrong.length ++
        str "' instead of '" ++ wrong ++ (base_attr_name attr.name).drop wrong.length ++ str "'",
      false, ⟨attr.name_start, attr.name_end⟩⟩]
  else []

/-- Per-attribute body of `check_typos` (typos.rs): the known-typo table is
consulted first and a hit stops all further typo checks for the attribute;
otherwise the `data-on-` separator check and the five prefix-separator checks
run in order. -/
def perAttrTypos (attr : ParsedAttribute) : List Diagnostic :=
  if ¬ (str "data-").isPrefixOf attr.name then []
  else
    match TYPOS.find? (fun p => p.1 = base_attr_name attr.name) with
    | some p =>
      [⟨str "datastar/typo",
        str "Possible typo: '" ++ p.1 ++ str "' - did you mean '" ++ p.2 ++ str "'?",
        false, ⟨attr.name_start, attr.name_end⟩⟩]
    | none =>
      (if (str "data-on-").isPrefixOf (base_attr_name attr.name) ∧
          ¬ is_valid_hyphen_event (base_attr_name attr.name) then
        [⟨str "datastar/typo",
          str "Use colon for events: 'data-on:" ++ (base_attr_name attr.name).drop 8 ++
            str "' instead of 'data-on-" ++ (base_attr_name attr.name).drop 8 ++ str "'",
          false, ⟨attr.name_start, attr.name_end⟩⟩]
      else []) ++
      check_prefix_separator attr (str "data-bind-") (str "data-bind:") ++
      check_prefix_separator attr (str "data-attr-") (str "data-attr:") ++
      check_prefix_separator attr (str "data-class-") (str "data-class:") ++
      check_prefix_separator attr (str "data-style-") (str "data-style:") ++
      check_prefix_separator attr (str "data-indicator-") (str "data-indicator:")

/-- `check_typos` from typos.rs. -/
def check_typos (tag : ParsedTag) : List Diagnostic :=
  (tag.attributes.map perAttrTypos).flatten

/-- `EVENT_MODIFIERS` from modifiers.rs. -/
def EVENT_MODIFIERS : List (List Char) :=
  [str "once", str "passive", str "capture", str "case", str "delay", str "debounce",
   str "throttle", str "viewtransition", str "window", str "outside", str "prevent",
   str "stop"]

/-- `INTERSECT_MODIFIERS` from modifiers.rs. -/
def INTERSECT_MODIFIERS : List (List Char) :=
  [str "once", str "exit", str "half", str "full", str "threshold", str "delay",
   str "debounce", str "throttle", str "viewtransition"]

/-- `PERSIST_MODIFIERS` from modifiers.rs. -/
def PERSIST_MODIFIERS : List (List Char) := [str "session"]

/-- `INIT_MODIFIERS` from modifiers.rs. -/
def INIT_MODIFIERS : List (List Char) := [str "delay", str "viewtransition"]

/-- `CASE_MODIFIERS` from modifiers.rs. -/
def CASE_MODIFIERS : List (List Char) :=
  [str "camel", str "kebab", str "snake", str "pascal"]

/-- `get_valid_modifiers` from modifiers.rs. -/
def get_valid_modifiers (base_attr : List Char) : List (List Char) :=
  if (str "data-on:").isPrefixOf base_attr then EVENT_MODIFIERS
  else if base_attr = str "data-on-intersect" then INTERSECT_MODIFIERS
  else if base_attr = str "data-persist" then PERSIST_MODIFIERS
  else if base_attr = str "data-init" then INIT_MODIFIERS
  else if base_attr = str "data-on-interval" ∨ base_attr = str "data-on-signal-patch" then
    [str "delay", str "debounce", str "throttle", str "viewtransition"]
  else if base_attr = str "data-on-raf" ∨ base_attr = str "data-on-resize" then
    [str "debounce", str "throttle"]
  else if base_attr = str "data-effect" then [str "viewtransition"]
  else if (str "data-signals").isPrefixOf base_attr ∨
      (str "data-computed").isPrefixOf base_attr ∨
      (str "data-ref").isPrefixOf base_attr ∨
      (str "data-bind").isPrefixOf base_attr ∨
      (str "data-indicator").isPrefixOf base_attr then
    [str "case"]
  else []

/-- Exponent digits of the `f64` grammar: optional sign then at least one
digit. -/
def expDigitsOk : List Char → Bool
  | [] => false
  | c :: t =>
    if c = '+' ∨ c = '-' then ¬ t = [] ∧ t.all Char.isDigit
    else (c :: t).all Char.isDigit

/-- Optional exponent part of the `f64` grammar. -/
def expOk : List Char → Bool
  | [] => true
  | c :: r => (c = 'e' ∨ c = 'E') ∧ expDigitsOk r

/-- Unsigned body of the `f64` grammar: `inf`/`infinity`/`nan`
(case-insensitive) or a decimal significand with optional exponent. -/
def f64Body (s1 : List Char) : Bool :=
  if s1.map Char.toLower = str "inf" ∨ s1.map Char.toLower = str "infinity" ∨
      s1.map Char.toLower = str "nan" then true
  else
    match s1.dropWhile Char.isDigit with
    | '.' :: r2 =>
      (¬ s1.takeWhile Char.isDigit = [] ∨ ¬ r2.takeWhile Char.isDigit = []) ∧
        expOk (r2.dropWhile Char.isDigit)
    | r1 => ¬ s1.takeWhile Char.isDigit = [] ∧ expOk r1

/-- `modifier.parse::<f64>().is_ok()`: recogniser for the grammar accepted by
Rust's `f64::from_str` (which never errors on a grammatically valid input). -/
def parses_as_f64 (s : List Char) : Bool :=
  match s with
  | [] => false
  | c :: t => if c = '+' ∨ c = '-' then f64Body t else f64Body (c :: t)

/-- `is_timing_modifier` from modifiers.rs. -/
def is_timing_modifier (modifier : List Char) : Bool :=
  (str "ms").isSuffixOf modifier ∨ modifier.getLast? = some 's' ∨
    modifier = str "leading" ∨ modifier = str "trailing" ∨
    modifier = str "notrailing" ∨ modifier = str "noleading" ∨ parses_as_f64 modifier

/-- `str::strip_prefix`. -/
def stripPfx (pre s : List Char) : Option (List Char) :=
  if pre.isPrefixOf s then some (s.drop pre.length) else none

/-- Per-modifier body of the loop in `check_modifiers` (modifiers.rs):
a `case` modifier validates its `.value` suffix against `CASE_MODIFIERS` and
bypasses the family allow-list; any other modifier must be in the allow-list
or look like a timing token. -/
def perModifier (base : List Char) (valid : List (List Char)) (attr : ParsedAttribute)
    (modifier : List Char) : List Diagnostic :=
  if modifier.takeWhile (fun c => ¬ c = '.') = str "case" then
    match stripPfx (str "case.") modifier with
    | some case_value =>
      if ¬ CASE_MODIFIERS.contains case_value then
        [⟨str "datastar/invalid-modifier",
          str "Invalid case modifier '" ++ case_value ++
            str "'. Valid options: camel, kebab, snake, pascal",
          false, ⟨attr.name_start, attr.name_end⟩⟩]
      else []
    | none => []
  else
    if ¬ valid.contains (modifier.takeWhile (fun c => ¬ c = '.')) ∧
        ¬ is_timing_modifier (modifier.takeWhile (fun c => ¬ c = '.')) then
      [⟨str "datastar/invalid-modifier",
        str "Invalid modifier '" ++ modifier ++ str "' for '" ++ base ++
          str "'. Valid modifiers: " ++ List.intercalate (str ", ") valid,
        false, ⟨attr.name_start, attr.name_end⟩⟩]
    else []

/-- `check_modifiers` from modifiers.rs. -/
def check_modifiers (tag : ParsedTag) : List Diagnostic :=
  (tag.attributes.map fun attr =>
    if ¬ is_datastar_attr attr.name then []
    else if extract_modifiers attr.name = [] then []
    else
      ((extract_modifiers attr.name).map
        (perModifier (base_attr_name attr.name)
          (get_valid_modifiers (base_attr_name attr.name)) attr)).flatten).flatten

example :
    check_modifiers ⟨str "div",
      [⟨str "data-on:click__debounce.500ms__once", some (str "handle()"), 5, 41,
        some 43, some 51⟩]⟩ = [] := by
  simp [check_modifiers, extract_modifiers, extractModsGo_eq_some, extractModsGo_eq_none,
    findDelim, base_attr_name, perModifier, get_valid_modifiers, is_datastar_attr,
    is_timing_modifier, stripPfx, EVENT_MODIFIERS, CASE_MODIFIERS, str]

/-- `SSE_ACTIONS` from actions.rs. -/
def SSE_ACTIONS : List (List Char) :=
  [str "@get", str "@post", str "@patch", str "@put", str "@delete"]

/-- `PRO_ACTIONS` from actions.rs. -/
def PRO_ACTIONS : List (List Char) := [str "@clipboard", str "@fit"]

/-- `ALL_ACTIONS` from actions.rs. -/
def ALL_ACTIONS : List (List Char) :=
  [str "@get", str "@post", str "@patch", str "@put", str "@delete",
   str "@clipboard", str "@fit"]

/-- `is_action_char` from actions.rs. -/
def is_action_char (c : Char) : Bool :=
  ('a' ≤ c ∧ c ≤ 'z') ∨ ('A' ≤ c ∧ c ≤ 'Z')

/-- `str::contains(pat)`: whether `pat` occurs contiguously in `s`. -/
def isSubstring (pat : List Char) : List Char → Bool
  | [] => pat.isPrefixOf []
  | c :: rest => pat.isPrefixOf (c :: rest) || isSubstring pat rest

/-- `find_similar_action` from actions.rs. -/
def find_similar_action (name : List Char) : Option (List Char) :=
  ALL_ACTIONS.findSome? fun action =>
    if action.map Char.toLower = name.map Char.toLower then some action
    else if isSubstring (action.drop 1) (name.map Char.toLower) then some action
    else none

/-- `char::is_whitespace` (the Unicode White_Space property), as used by
`str::trim`. -/
def rustIsWhitespace (c : Char) : Bool :=
  c = '\t' ∨ c = '\n' ∨ c = Char.ofNat 0x0B ∨ c = '\x0c' ∨ c = '\r' ∨ c = ' ' ∨
    c = Char.ofNat 0x85 ∨ c = Char.ofNat 0xA0 ∨ c = Char.ofNat 0x1680 ∨
    (Char.ofNat 0x2000 ≤ c ∧ c ≤ Char.ofNat 0x200A) ∨
    c = Char.ofNat 0x2028 ∨ c = Char.ofNat 0x2029 ∨ c = Char.ofNat 0x202F ∨
    c = Char.ofNat 0x205F ∨ c = Char.ofNat 0x3000

/-- `str::trim`. -/
def rustTrim (s : List Char) : List Char :=
  ((s.dropWhile rustIsWhitespace).reverse.dropWhile rustIsWhitespace).reverse

/-- `looks_like_url` from actions.rs.  The quoted branch slices
`&trimmed[1..trimmed.len() - 1]`, which panics (modelled as `none`) when
`trimmed` is a single quote character. -/
def looks_like_url (value : List Char) : Option Bool :=
  if (rustTrim value).head? = some '/' then some true
  else
    if ((rustTrim value).head? = some '\'' ∧ (rustTrim value).getLast? = some '\'') ∨
        ((rustTrim value).head? = some '"' ∧ (rustTrim value).getLast? = some '"') ∨
        ((rustTrim value).head? = some '`' ∧ (rustTrim value).getLast? = some '`') then
      match slice? (rustTrim value) 1 ((rustTrim value).length - 1) with
      | none => none
      | some inner => some (inner.head? = some '/')
    else some false

/-- `looks_like_expression` from actions.rs. -/
def looks_like_expression (value : List Char) : Bool :=
  (rustTrim value).contains '$' ∨ (rustTrim value).contains '+' ∨
    (rustTrim value).head? = some '`'

/-- Span attached to every action-syntax diagnostic:
`attr.value_start.unwrap_or(attr.name_start) .. attr.value_end.unwrap_or(attr.name_end)`. -/
def actionSpan (attr : ParsedAttribute) : Span :=
  ⟨attr.value_start.getD attr.name_start, attr.value_end.getD attr.name_end⟩

/-- The "Unknown action … Did you mean …" diagnostic from actions.rs. -/
def unknownActionDiag (action_name suggestion : List Char) (attr : ParsedAttribute) :
    Diagnostic :=
  ⟨str "datastar/action-syntax",
   str "Unknown action '" ++ action_name ++ str "'. Did you mean '" ++ suggestion ++ str "'?",
   false, actionSpan attr⟩

/-- The "requires parentheses" diagnostic from actions.rs. -/
def requiresParensDiag (action_name : List Char) (attr : ParsedAttribute) : Diagnostic :=
  ⟨str "datastar/action-syntax",
   str "Action '" ++ action_name ++ str "' requires parentheses, e.g., " ++ action_name ++
     str "('/path')",
   false, actionSpan attr⟩

/-- The "Unclosed parentheses" diagnostic from actions.rs. -/
def unclosedParensDiag (action_name : List Char) (attr : ParsedAttribute) : Diagnostic :=
  ⟨str "datastar/action-syntax",
   str "Unclosed parentheses in '" ++ action_name ++ str "' call",
   false, actionSpan attr⟩

/-- The "requires a URL argument" diagnostic from actions.rs. -/
def urlRequiredDiag (action_name : List Char) (attr : ParsedAttribute) : Diagnostic :=
  ⟨str "datastar/action-syntax",
   str "SSE action '" ++ action_name ++ str "' requires a URL argument, e.g., " ++
     action_name ++ str "('/api/endpoint')",
   false, actionSpan attr⟩

/-- The "URL should start with '/' …" diagnostic from actions.rs. -/
def urlShapeDiag (action_name first_arg : List Char) (attr : ParsedAttribute) : Diagnostic :=
  ⟨str "datastar/action-syntax",
   str "SSE action '" ++ action_name ++
     str "' URL should start with '/' or be a string/expression, got: " ++ first_arg,
   false, actionSpan attr⟩

/-- End of the action-name run following an `@` at position `i`. -/
def actionNameEnd (value : List Char) (i : Nat) : Nat :=
  skipWhile is_action_char value (i + 1)

/-- Cursor after skipping literal spaces that follow the action name. -/
def spaceEnd (value : List Char) (i : Nat) : Nat :=
  skipWhile (fun c => c = ' ') value (actionNameEnd value i)

theorem actionNameEnd_ge (value : List Char) (i : Nat) : i + 1 ≤ actionNameEnd value i :=
  skipWhile_ge _ value _

theorem spaceEnd_ge (value : List Char) (i : Nat) :
    actionNameEnd value i ≤ spaceEnd value i :=
  skipWhile_ge _ value _

/-- The quoted-span skip inside the parenthesis scan of
`check_action_syntax` (actions.rs): advance to the closing quote (or end of
input), skipping a byte after each backslash. -/
def quoteSkip (value : List Char) (q : Char) (i : Nat) : Nat :=
  if h : i < value.length then
    if byteAt value i = q then i
    else if byteAt value i = '\\' ∧ i + 1 < value.length then quoteSkip value q (i + 2)
    else quoteSkip value q (i + 1)
  else i
termination_by value.length - i
decreasing_by
  · omega
  · omega

theorem quoteSkip_ge (value : List Char) (q : Char) (i : Nat) : i ≤ quoteSkip value q i := by
  induction i using quoteSkip.induct value q with
  | case1 i h hq => rw [quoteSkip]; simp [h, hq]
  | case2 i h hq hbs ih => rw [quoteSkip]; simp only [dif_pos h, if_neg hq, if_pos hbs]; omega
  | case3 i h hq hbs ih => rw [quoteSkip]; simp only [dif_pos h, if_neg hq, if_neg hbs]; omega
  | case4 i h => rw [quoteSkip]; simp [h]

/-- The depth-tracking parenthesis scan of `check_action_syntax` (actions.rs),
entered just after the opening `(` with depth 1; returns the final cursor and
the final depth (0 exactly when the parentheses closed). -/
def parenScan (value : List Char) (i : Nat) (depth : Nat) : Nat × Nat :=
  if h : i < value.length ∧ depth > 0 then
    if byteAt value i = '(' then parenScan value (i + 1) (depth + 1)
    else if byteAt value i = ')' then parenScan value (i + 1) (depth - 1)
    else if byteAt value i = '"' ∨ byteAt value i = '\'' ∨ byteAt value i = '`' then
      parenScan value (quoteSkip value (byteAt value i) (i + 1) + 1) depth
    else parenScan value (i + 1) depth
  else (i, depth)
termination_by value.length - i
decreasing_by
  · omega
  · omega
  · have h1 := quoteSkip_ge value (byteAt value i) (i + 1)
    omega
  · omega

theorem parenScan_fst_ge (value : List Char) (i : Nat) (depth : Nat) :
    i ≤ (parenScan value i depth).1 := by
  induction i, depth using parenScan.induct value with
  | case1 i depth h hp ih =>
    rw [parenScan]; simp only [dif_pos h, if_pos hp]; omega
  | case2 i depth h hp hc ih =>
    rw [parenScan]; simp only [dif_pos h, if_neg hp, if_pos hc]; omega
  | case3 i depth h hp hc hq ih =>
    rw [parenScan]; simp only [dif_pos h, if_neg hp, if_neg hc, if_pos hq]
    have h1 := quoteSkip_ge value (byteAt value i) (i + 1)
    omega
  | case4 i depth h hp hc hq ih =>
    rw [parenScan]; simp only [dif_pos h, if_neg hp, if_neg hc, if_neg hq]; omega
  | case5 i depth h => rw [parenScan]; simp [h]

/-- The `@`-scanning loop of `check_action_syntax` (actions.rs), returning the
diagnostics it pushes in order, or `none` when a slice panics. -/
def casLoop (value : List Char) (attr : ParsedAttribute) (i : Nat) :
    Option (List Diagnostic) :=
  if h : i < value.length then
    if ¬ byteAt value i = '@' then casLoop value attr (i + 1)
    else
      match slice? value i (actionNameEnd value i) with
      | none => none
      | some action_name =>
        if action_name.length ≤ 1 then casLoop value attr (actionNameEnd value i)
        else if ¬ SSE_ACTIONS.contains action_name ∧ ¬ PRO_ACTIONS.contains action_name then
          match find_similar_action action_name with
          | some suggestion =>
            (casLoop value attr (actionNameEnd value i)).map
              (fun r => unknownActionDiag action_name suggestion attr :: r)
          | none => casLoop value attr (actionNameEnd value i)
        else
          if spaceEnd value i < value.length ∧ byteAt value (spaceEnd value i) = '(' then
            if ¬ (parenScan value (spaceEnd value i + 1) 1).2 = 0 then
              (casLoop value attr (parenScan value (spaceEnd value i + 1) 1).1).map
                (fun r => unclosedParensDiag action_name attr :: r)
            else if SSE_ACTIONS.contains action_name then
              match slice? value (spaceEnd value i + 1)
                  ((parenScan value (spaceEnd value i + 1) 1).1 - 1) with
              | none => none
              | some args =>
                if rustTrim (args.takeWhile (fun c => ¬ c = ',')) = [] then
                  (casLoop value attr (parenScan value (spaceEnd value i + 1) 1).1).map
                    (fun r => urlRequiredDiag action_name attr :: r)
                else
                  match looks_like_url (rustTrim (args.takeWhile (fun c => ¬ c = ','))) with
                  | none => none
                  | some b =>
                    if ¬ b ∧
                        ¬ looks_like_expression
                          (rustTrim (args.takeWhile (fun c => ¬ c = ','))) then
                      (casLoop value attr (parenScan value (spaceEnd value i + 1) 1).1).map
                        (fun r =>
                          urlShapeDiag action_name
                            (rustTrim (args.takeWhile (fun c => ¬ c = ','))) attr :: r)
                    else casLoop value attr (parenScan value (spaceEnd value i + 1) 1).1
            else casLoop value attr (parenScan value (spaceEnd value i + 1) 1).1
          else
            (casLoop value attr (spaceEnd value i)).map
              (fun r => requiresParensDiag action_name attr :: r)
  else some []
termination_by value.length - i
decreasing_by
  all_goals
    have h1 := actionNameEnd_ge value i
  all_goals
    have h2 := spaceEnd_ge value i
  all_goals
    have h3 := parenScan_fst_ge value (spaceEnd value i + 1) 1
  all_goals omega

/-- `check_action_syntax` from actions.rs. -/
def check_action_syntax (value : List Char) (attr : ParsedAttribute) :
    Option (List Diagnostic) :=
  casLoop value attr 0

/-- Attribute loop of `check_actions` (actions.rs). -/
def check_actions_go : List ParsedAttribute → Option (List Diagnostic)
  | [] => some []
  | attr :: rest =>
    if is_datastar_attr attr.name then
      match attr.value with
      | some v =>
        match check_action_syntax v attr with
        | none => none
        | some ds =>
          match check_actions_go rest with
          | none => none
          | some ds2 => some (ds ++ ds2)
      | none => check_actions_go rest
    else check_actions_go rest

/-- `check_actions` from actions.rs. -/
def check_actions (tag : ParsedTag) : Option (List Diagnostic) :=
  check_actions_go tag.attributes

/-- Tag loop of `DatastarHygiene::lint` (lib.rs): for every tag the six
checkers run in the fixed order, each gated by its configuration flag,
appending to one sink; a panic (`none`) aborts the whole lint call. -/
def lintTags (cfg : DatastarConfig) : List ParsedTag → Option (List Diagnostic)
  | [] => some []
  | t :: ts =>
    match (if cfg.check_actions then check_actions t else some []) with
    | none => none
    | some da =>
      match lintTags cfg ts with
      | none => none
      | some rest =>
        some ((if cfg.check_alpine_vue then check_alpine_vue t else []) ++
              (if cfg.check_required_values then check_required_values t else []) ++
              (if cfg.check_for_template then check_for_on_template t else []) ++
              (if cfg.check_typos then check_typos t else []) ++
              (if cfg.check_modifiers then check_modifiers t else []) ++
              da ++ rest)

/-- `DatastarHygiene::lint` from lib.rs: a pure function of the source text
(the path argument is ignored, mirroring `_path`). -/
def lint (cfg : DatastarConfig) (path source : List Char) : Option (List Diagnostic) :=
  lintTags cfg (parse_tags source)

/-!
Specification-side balance predicate (§4.5 of the spec), written from the
spec's words, to be compared with the code's `parenScan`:
"scan forward tracking nesting depth, incrementing on `(` and decrementing on
`)`, while skipping over quoted spans verbatim (quote chars are `"`, `'`,
`` ` ``; a backslash inside a quoted span escapes the following byte and both
are skipped together) … if depth never returns to zero before input ends,
emit an "unclosed parentheses" diagnostic".
-/

/-- Head byte of the remaining spec-side text (NUL placeholder when empty;
every use is guarded by an emptiness check). -/
def headD0 (l : List Char) : Char := l.headD (Char.ofNat 0)

/-- Spec-side quoted-span skip: the text after the matching close quote,
treating a backslash and its following byte as skipped together. -/
def specSkipQuote (q : Char) (l : List Char) : List Char :=
  if he : l = [] then []
  else if headD0 l = q then l.tail
  else if headD0 l = '\\' then specSkipQuote q l.tail.tail
  else specSkipQuote q l.tail
termination_by l.length
decreasing_by
  all_goals
    have h0l : 0 < l.length := List.length_pos.mpr he
  all_goals
    simp only [List.length_tail]
  all_goals omega

theorem specSkipQuote_length_le (q : Char) (l : List Char) :
    (specSkipQuote q l).length ≤ l.length := by
  induction l using specSkipQuote.induct q with
  | case1 => simp [specSkipQuote]
  | case2 l he hq =>
    rw [specSkipQuote, dif_neg he, if_pos hq]
    have := List.length_tail l
    omega
  | case3 l he hq hb ih =>
    rw [specSkipQuote, dif_neg he, if_neg hq, if_pos hb]
    have h1 := List.length_tail l
    have h2 := List.length_tail l.tail
    omega
  | case4 l he hq hb ih =>
    rw [specSkipQuote, dif_neg he, if_neg hq, if_neg hb]
    have := List.length_tail l
    omega

/-- Spec-side depth scan: `true` iff the nesting depth returns to zero before
the input ends, with parentheses inside quoted spans ignored. -/
def specBalancedGo (depth : Nat) (l : List Char) : Bool :=
  if he : l = [] then false
  else if headD0 l = '(' then specBalancedGo (depth + 1) l.tail
  else if headD0 l = ')' then (if depth = 1 then true else specBalancedGo (depth - 1) l.tail)
  else if headD0 l = '"' ∨ headD0 l = '\'' ∨ headD0 l = '`' then
    specBalancedGo depth (specSkipQuote (headD0 l) l.tail)
  else specBalancedGo depth l.tail
termination_by l.length
decreasing_by
  all_goals
    have h0l : 0 < l.length := List.length_pos.mpr he
  all_goals
    have h2 := specSkipQuote_length_le (headD0 l) l.tail
  all_goals
    simp only [List.length_tail] at *
  all_goals omega

/-- Spec-side balance of the text that follows a call's opening parenthesis. -/
def specBalanced (s : List Char) : Bool := specBalancedGo 1 s

theorem byteAt_eq_getElem (s : List Char) (i : Nat) (h : i < s.length) :
    byteAt s i = s[i] := by
  simp [byteAt, List.getD_eq_getElem?_getD, List.getElem?_eq_getElem h]

theorem drop_ne_nil (s : List Char) (j : Nat) (h : j < s.length) : ¬ s.drop j = [] := by
  intro hc
  have := List.drop_eq_nil_iff.mp hc
  omega

theorem headD0_drop (s : List Char) (j : Nat) (h : j < s.length) :
    headD0 (s.drop j) = byteAt s j := by
  rw [List.drop_eq_getElem_cons h, headD0, byteAt_eq_getElem s j h]
  rfl

theorem tail_drop_eq (s : List Char) (j : Nat) : (s.drop j).tail = s.drop (j + 1) :=
  List.tail_drop s j

theorem quoteSkip_drop (value : List Char) (q : Char) (j : Nat) :
    value.drop (quoteSkip value q j + 1) = specSkipQuote q (value.drop j) := by
  induction j using quoteSkip.induct value q with
  | case1 j h hq =>
    rw [quoteSkip]
    simp only [dif_pos h, if_pos hq]
    rw [specSkipQuote, dif_neg (drop_ne_nil value j h), headD0_drop value j h, if_pos hq,
      tail_drop_eq]
  | case2 j h hq hbs ih =>
    rw [quoteSkip]
    simp only [dif_pos h, if_neg hq, if_pos hbs]
    rw [specSkipQuote, dif_neg (drop_ne_nil value j h), headD0_drop value j h, if_neg hq,
      if_pos hbs.1, tail_drop_eq, tail_drop_eq]
    exact ih
  | case3 j h hq hbs ih =>
    rw [quoteSkip]
    simp only [dif_pos h, if_neg hq, if_neg hbs]
    rw [specSkipQuote, dif_neg (drop_ne_nil value j h), headD0_drop value j h, if_neg hq]
    by_cases hb : byteAt value j = '\\'
    · have hlen : ¬ j + 1 < value.length := by
        intro hcon
        exact hbs ⟨hb, hcon⟩
      rw [if_pos hb, tail_drop_eq, tail_drop_eq]
      have hqs : quoteSkip value q (j + 1) = j + 1 := by
        rw [quoteSkip]
        simp [hlen]
      have hd1 : value.drop (j + 1 + 1) = [] := List.drop_eq_nil_of_le (by omega)
      have hd2 : value.drop (j + 1 + 1) = value.drop (j + 1 + 1) := rfl
      rw [hqs, hd1]
      rw [show value.drop (j + 1) = [] from List.drop_eq_nil_of_le (by omega)] at ih
      rw [hqs] at ih
      rw [show value.drop (j + 1 + 1) = [] from List.drop_eq_nil_of_le (by omega)] at ih
      rw [specSkipQuote, dif_pos rfl]
    · rw [if_neg hb, tail_drop_eq]
      exact ih
  | case4 j h =>
    rw [quoteSkip]
    simp only [dif_neg h]
    have h1 : value.drop j = [] := List.drop_eq_nil_of_le (by omega)
    have h2 : value.drop (j + 1) = [] := List.drop_eq_nil_of_le (by omega)
    rw [h1, h2, specSkipQuote, dif_pos rfl]

theorem parenScan_eq_specBalanced (value : List Char) (i : Nat) (depth : Nat)
    (hd : 0 < depth) :
    ((parenScan value i depth).2 = 0) ↔ specBalancedGo depth (value.drop i) = true := by
  induction i, depth using parenScan.induct value with
  | case1 i depth h hp ih =>
    rw [parenScan]
    simp only [dif_pos h, if_pos hp]
    rw [specBalancedGo, dif_neg (drop_ne_nil value i h.1), headD0_drop value i h.1,
      if_pos hp, tail_drop_eq]
    exact ih (by omega)
  | case2 i depth h hp hc ih =>
    rw [parenScan]
    simp only [dif_pos h, if_neg hp, if_pos hc]
    rw [specBalancedGo, dif_neg (drop_ne_nil value i h.1), headD0_drop value i h.1,
      if_neg hp, if_pos hc, tail_drop_eq]
    by_cases h1 : depth = 1
    · subst h1
      rw [if_pos rfl]
      constructor
      · intro _; rfl
      · intro _
        rw [parenScan]
        simp
    · rw [if_neg h1]
      exact ih (by omega)
  | case3 i depth h hp hc hq ih =>
    rw [parenScan]
    simp only [dif_pos h, if_neg hp, if_neg hc, if_pos hq]
    rw [specBalancedGo, dif_neg (drop_ne_nil value i h.1), headD0_drop value i h.1,
      if_neg hp, if_neg hc, if_pos hq, tail_drop_eq,
      ← quoteSkip_drop value (byteAt value i) (i + 1)]
    exact ih hd
  | case4 i depth h hp hc hq ih =>
    rw [parenScan]
    simp only [dif_pos h, if_neg hp, if_neg hc, if_neg hq]
    rw [specBalancedGo, dif_neg (drop_ne_nil value i h.1), headD0_drop value i h.1,
      if_neg hp, if_neg hc, if_neg hq, tail_drop_eq]
    exact ih hd
  | case5 i depth h =>
    rw [parenScan]
    simp only [dif_neg h]
    have hlen : ¬ i < value.length := by
      intro hcon
      exact h ⟨hcon, hd⟩
    have h1 : value.drop i = [] := List.drop_eq_nil_of_le (by omega)
    rw [h1, specBalancedGo, dif_pos rfl]
    simp
    omega

/-- Well-formedness of one parsed attribute with respect to the source text:
spans are in bounds and the recorded texts are exactly the substrings at the
recorded spans. -/
def attrWF (s : List Char) (a : ParsedAttribute) : Prop :=
  a.name_start ≤ a.name_end ∧ a.name_end ≤ s.length ∧
    a.name = sliceStr s a.name_start a.name_end ∧
    match a.value, a.value_start, a.value_end with
    | some v, some vs, some ve => vs ≤ ve ∧ ve ≤ s.length ∧ v = sliceStr s vs ve
    | none, none, none => True
    | _, _, _ => False

theorem parseAttrValue_wf (s : List Char) (j e : Nat) (hj : j ≤ e)
    (he : e ≤ s.length) : attrWF s (parseAttrValue s j e).1 := by
  have h1 := eqPos_ge s e
  have h2 := valStartPos_ge s e
  have h3 := quotedEnd_ge s e
  have h4 := unquotedEnd_ge s e
  by_cases hc1 : eqPos s e < s.length ∧ byteAt s (eqPos s e) = '='
  · by_cases hc2 : valStartPos s e < s.length
    · by_cases hc3 : byteAt s (valStartPos s e) = '"' ∨ byteAt s (valStartPos s e) = '\''
      · rw [parseAttrValue, if_pos hc1, if_pos hc2, if_pos hc3]
        exact ⟨hj, he, rfl, by omega,
          skipWhile_le _ s (valStartPos s e + 1) (by omega), rfl⟩
      · rw [parseAttrValue, if_pos hc1, if_pos hc2, if_neg hc3]
        exact ⟨hj, he, rfl, by omega,
          skipWhile_le _ s (valStartPos s e) (by omega), rfl⟩
    · rw [parseAttrValue, if_pos hc1, if_neg hc2]
      exact ⟨hj, he, rfl, trivial⟩
  · rw [parseAttrValue, if_neg hc1]
    exact ⟨hj, he, rfl, trivial⟩

theorem parseAttrs_wf (s : List Char) (i : Nat) (acc : List ParsedAttribute)
    (hacc : ∀ a ∈ acc, attrWF s a) :
    ∀ a ∈ (parseAttrs s i acc).2, attrWF s a := by
  induction i, acc using parseAttrs.induct s with
  | case1 i acc h hgt =>
    rw [parseAttrs]
    simp only [dif_pos h, if_pos hgt]
    exact hacc
  | case2 i acc h hgt hsl hcl =>
    rw [parseAttrs]
    simp only [dif_pos h, if_neg hgt, if_pos hsl, if_pos hcl]
    exact hacc
  | case3 i acc h hgt hsl hcl =>
    rw [parseAttrs]
    simp only [dif_pos h, if_neg hgt, if_pos hsl, if_neg hcl]
    exact hacc
  | case4 i acc h hgt hsl hne ih =>
    rw [parseAttrs]
    simp only [dif_pos h, if_neg hgt, if_neg hsl, dif_pos hne]
    exact ih hacc
  | case5 i acc h hgt hsl hne ih =>
    rw [parseAttrs]
    simp only [dif_pos h, if_neg hgt, if_neg hsl, dif_neg hne]
    apply ih
    intro a ha
    rcases List.mem_append.mp ha with ha | ha
    · exact hacc a ha
    · have hmem : a = (parseAttrValue s (attrStart s i) (attrNameEnd s i)).1 := by
        simpa using ha
      subst hmem
      apply parseAttrValue_wf
      · exact attrNameEnd_ge s i
      · exact skipWhile_le _ s (attrStart s i) (by omega)
  | case6 i acc h =>
    rw [parseAttrs]
    simp only [dif_neg h]
    exact hacc

theorem parse_tags_go_wf (s : List Char) (i : Nat) (acc : List ParsedTag)
    (hacc : ∀ t ∈ acc, ∀ a ∈ t.attributes, attrWF s a) :
    ∀ t ∈ parse_tags_go s i acc, ∀ a ∈ t.attributes, attrWF s a := by
  induction i, acc using parse_tags_go.induct s with
  | case1 i acc h hlt ih =>
    rw [parse_tags_go]
    simp only [dif_pos h, if_pos hlt]
    exact ih hacc
  | case2 i acc h hlt hcm e hf ih =>
    rw [parse_tags_go]
    simp only [dif_pos h, if_neg hlt, if_pos hcm]
    split
    · rename_i e2 heq
      rw [hf] at heq
      cases heq
      exact ih hacc
    · rename_i heq
      rw [hf] at heq
      cases heq
  | case3 i acc h hlt hcm hf =>
    rw [parse_tags_go]
    simp only [dif_pos h, if_neg hlt, if_pos hcm]
    split
    · rename_i e2 heq
      rw [hf] at heq
      cases heq
    · exact hacc
  | case4 i acc h hlt hcm hdt e2 hg ih =>
    rw [parse_tags_go]
    simp only [dif_pos h, if_neg hlt, if_neg hcm, if_pos hdt]
    split
    · rename_i e3 heq
      rw [hg] at heq
      cases heq
      exact ih hacc
    · rename_i heq
      rw [hg] at heq
      cases heq
  | case5 i acc h hlt hcm hdt hg =>
    rw [parse_tags_go]
    simp only [dif_pos h, if_neg hlt, if_neg hcm, if_pos hdt]
    split
    · rename_i e3 heq
      rw [hg] at heq
      cases heq
    · exact hacc
  | case6 i acc h hlt hcm hdt hne ih =>
    rw [parse_tags_go]
    simp only [dif_pos h, if_neg hlt, if_neg hcm, if_neg hdt, dif_pos hne]
    exact ih hacc
  | case7 i acc h hlt hcm hdt hne ih =>
    rw [parse_tags_go]
    simp only [dif_pos h, if_neg hlt, if_neg hcm, if_neg hdt, dif_neg hne]
    apply ih
    intro t ht
    rcases List.mem_append.mp ht with ht | ht
    · exact hacc t ht
    · have hmem : t = ⟨sliceStr s (tagNameStart s i) (tagNameEnd s i),
          (parseAttrs s (tagNameEnd s i) []).2⟩ := by
        simpa using ht
      subst hmem
      intro a ha
      exact parseAttrs_wf s (tagNameEnd s i) [] (by simp) a ha
  | case8 i acc h =>
    rw [parse_tags_go]
    simp only [dif_neg h]
    exact hacc

theorem parse_tags_wf (s : List Char) :
    ∀ t ∈ parse_tags s, ∀ a ∈ t.attributes, attrWF s a :=
  parse_tags_go_wf s 0 [] (by simp)

/-- Option-valued map, used to state the grouped form of `lint`. -/
def mapOpt {α β : Type} (f : α → Option β) : List α → Option (List β)
  | [] => some []
  | x :: xs =>
    match f x with
    | none => none
    | some y =>
      match mapOpt f xs with
      | none => none
      | some ys => some (y :: ys)

/-- The diagnostics one tag contributes to a lint run: the six checkers'
outputs concatenated in the fixed dispatch order of `DatastarHygiene::lint`
(alpine/vue, required values, for-template, typos, modifiers, actions), each
gated by its configuration flag. -/
def perTagDiags (cfg : DatastarConfig) (t : ParsedTag) : Option (List Diagnostic) :=
  match (if cfg.check_actions then check_actions t else some []) with
  | none => none
  | some da =>
    some ((if cfg.check_alpine_vue then check_alpine_vue t else []) ++
          (if cfg.check_required_values then check_required_values t else []) ++
          (if cfg.check_for_template then check_for_on_template t else []) ++
          (if cfg.check_typos then check_typos t else []) ++
          (if cfg.check_modifiers then check_modifiers t else []) ++ da)

theorem lintTags_eq_mapOpt (cfg : DatastarConfig) (ts : List ParsedTag) :
    lintTags cfg ts = (mapOpt (perTagDiags cfg) ts).map List.flatten := by
  induction ts with
  | nil => rfl
  | cons t ts ih =>
    rw [lintTags, mapOpt, perTagDiags]
    cases hda : (if cfg.check_actions then check_actions t else some []) with
    | none => rfl
    | some da =>
      rw [ih]
      cases hmt : mapOpt (perTagDiags cfg) ts with
      | none => rfl
      | some gs => simp [List.append_assoc]

theorem mapOpt_flatten_mem {α β : Type} (f : α → Option (List β)) (l : List α)
    (ys : List (List β)) (h : mapOpt f l = some ys) (b : β) :
    b ∈ ys.flatten ↔ ∃ a ∈ l, ∃ g, f a = some g ∧ b ∈ g := by
  induction l generalizing ys with
  | nil =>
    rw [mapOpt] at h
    cases h
    simp
  | cons x xs ih =>
    rw [mapOpt] at h
    cases hfx : f x with
    | none => rw [hfx] at h; cases h
    | some y =>
      rw [hfx] at h
      cases hmx : mapOpt f xs with
      | none => rw [hmx] at h; cases h
      | some ys2 =>
        rw [hmx] at h
        cases h
        simp only [List.flatten_cons, List.mem_append, List.mem_cons]
        constructor
        · rintro (hb | hb)
          · exact ⟨x, Or.inl rfl, y, hfx, hb⟩
          · obtain ⟨a, ha, g, hg, hbg⟩ := (ih ys2 hmx).mp hb
            exact ⟨a, Or.inr ha, g, hg, hbg⟩
        · rintro ⟨a, ha, g, hg, hbg⟩
          rcases ha with rfl | ha
          · rw [hfx] at hg; cases hg; exact Or.inl hbg
          · exact Or.inr ((ih ys2 hmx).mpr ⟨a, ha, g, hg, hbg⟩)

theorem check_alpine_vue_rule (t : ParsedTag) :
    ∀ d ∈ check_alpine_vue t, d.rule = str "datastar/no-alpine-vue-attrs" := by
  intro d hd
  simp only [check_alpine_vue, List.mem_flatten, List.mem_map] at hd
  obtain ⟨l, ⟨a, ha, rfl⟩, hdl⟩ := hd
  split at hdl
  · rw [List.mem_singleton] at hdl
    subst hdl
    rfl
  · simp at hdl

theorem check_required_values_rule (t : ParsedTag) :
    ∀ d ∈ check_required_values t, d.rule = str "datastar/require-value" := by
  intro d hd
  simp only [check_required_values, List.mem_flatten, List.mem_map] at hd
  obtain ⟨l, ⟨a, ha, rfl⟩, hdl⟩ := hd
  split at hdl
  · rw [List.mem_singleton] at hdl
    subst hdl
    rfl
  · simp at hdl

theorem check_for_on_template_rule (t : ParsedTag) :
    ∀ d ∈ check_for_on_template t, d.rule = str "datastar/for-template" := by
  intro d hd
  simp only [check_for_on_template, List.mem_flatten, List.mem_map] at hd
  obtain ⟨l, ⟨a, ha, rfl⟩, hdl⟩ := hd
  split at hdl
  · rw [List.mem_singleton] at hdl
    subst hdl
    rfl
  · simp at hdl

/-- Membership characterisation of the for-template checker's output. -/
theorem mem_check_for_on_template (t : ParsedTag) (d : Diagnostic) :
    d ∈ check_for_on_template t ↔
      ∃ a ∈ t.attributes, a.name = str "data-for" ∧
        ¬ toLowercase t.name = str "template" ∧
        d = ⟨str "datastar/for-template",
          str "data-for must be on a <template> element, found on <" ++ t.name ++ str ">",
          false, ⟨a.name_start, a.name_end⟩⟩ := by
  simp only [check_for_on_template, List.mem_flatten, List.mem_map]
  constructor
  · rintro ⟨l, ⟨a, ha, rfl⟩, hdl⟩
    split at hdl
    · rename_i hcond
      rw [List.mem_singleton] at hdl
      exact ⟨a, ha, hcond.1, hcond.2, hdl⟩
    · simp at hdl
  · rintro ⟨a, ha, h1, h2, rfl⟩
    refine ⟨_, ⟨a, ha, rfl⟩, ?_⟩
    rw [if_pos ⟨h1, h2⟩]
    exact List.mem_singleton.mpr rfl

theorem check_prefix_separator_rule (attr : ParsedAttribute) (wrong correct : List Char) :
    ∀ d ∈ check_prefix_separator attr wrong correct, d.rule = str "datastar/typo" := by
  intro d hd
  rw [check_prefix_separator] at hd
  split at hd
  · rw [List.mem_singleton] at hd
    subst hd
    rfl
  · simp at hd

theorem perAttrTypos_rule (attr : ParsedAttribute) :
    ∀ d ∈ perAttrTypos attr, d.rule = str "datastar/typo" := by
  intro d hd
  rw [perAttrTypos] at hd
  split at hd
  · simp at hd
  · split at hd
    · rw [List.mem_singleton] at hd
      subst hd
      rfl
    · rcases List.mem_append.mp hd with hd | hd
      rcases List.mem_append.mp hd with hd | hd
      rcases List.mem_append.mp hd with hd | hd
      rcases List.mem_append.mp hd with hd | hd
      rcases List.mem_append.mp hd with hd | hd
      · split at hd
        · rw [List.mem_singleton] at hd
          subst hd
          rfl
        · simp at hd
      · exact check_prefix_separator_rule attr _ _ d hd
      · exact check_prefix_separator_rule attr _ _ d hd
      · exact check_prefix_separator_rule attr _ _ d hd
      · exact check_prefix_separator_rule attr _ _ d hd
      · exact check_prefix_separator_rule attr _ _ d hd

theorem check_typos_rule (t : ParsedTag) :
    ∀ d ∈ check_typos t, d.rule = str "datastar/typo" := by
  intro d hd
  simp only [check_typos, List.mem_flatten, List.mem_map] at hd
  obtain ⟨l, ⟨a, ha, rfl⟩, hdl⟩ := hd
  exact perAttrTypos_rule a d hdl

theorem perModifier_rule (base : List Char) (valid : List (List Char))
    (attr : ParsedAttribute) (modifier : List Char) :
    ∀ d ∈ perModifier base valid attr modifier,
      d.rule = str "datastar/invalid-modifier" := by
  intro d hd
  rw [perModifier] at hd
  split at hd
  · split at hd
    · split at hd
      · rw [List.mem_singleton] at hd
        subst hd
        rfl
      · simp at hd
    · simp at hd
  · split at hd
    · rw [List.mem_singleton] at hd
      subst hd
      rfl
    · simp at hd

theorem check_modifiers_rule (t : ParsedTag) :
    ∀ d ∈ check_modifiers t, d.rule = str "datastar/invalid-modifier" := by
  intro d hd
  simp only [check_modifiers, List.mem_flatten, List.mem_map] at hd
  obtain ⟨l, ⟨a, ha, rfl⟩, hdl⟩ := hd
  split at hdl
  · simp at hdl
  · split at hdl
    · simp at hdl
    · simp only [List.mem_flatten, List.mem_map] at hdl
      obtain ⟨l2, ⟨m, hm, rfl⟩, hdl2⟩ := hdl
      exact perModifier_rule _ _ a m d hdl2

theorem casLoop_rule (value : List Char) (attr : ParsedAttribute) (i : Nat) :
    ∀ ds, casLoop value attr i = some ds →
      ∀ d ∈ ds, d.rule = str "datastar/action-syntax" := by
  induction i using casLoop.induct value attr with
  | case1 x hlt hat ih =>
    intro ds hds
    rw [casLoop] at hds
    simp only [dif_pos hlt, if_pos hat] at hds
    exact ih ds hds
  | case2 x hlt hat hsl =>
    intro ds hds
    rw [casLoop] at hds
    simp only [dif_pos hlt, if_neg hat, hsl] at hds
    cases hds
  | case3 x hlt hat inner hsl hlen ih =>
    intro ds hds
    rw [casLoop] at hds
    simp only [dif_pos hlt, if_neg hat, hsl, if_pos hlen] at hds
    exact ih ds hds
  | case4 x hlt hat inner hsl hlen hunk v hfs ih =>
    intro ds hds
    rw [casLoop] at hds
    simp only [dif_pos hlt, if_neg hat, hsl, if_neg hlen, if_pos hunk, hfs] at hds
    obtain ⟨r, hrec, rfl⟩ := Option.map_eq_some'.mp hds
    intro d hd
    rcases List.mem_cons.mp hd with rfl | hd
    · rfl
    · exact ih r hrec d hd
  | case5 x hlt hat inner hsl hlen hunk hfs ih =>
    intro ds hds
    rw [casLoop] at hds
    simp only [dif_pos hlt, if_neg hat, hsl, if_neg hlen, if_pos hunk, hfs] at hds
    exact ih ds hds
  | case6 x hlt hat inner hsl hlen hkn hpar hdep ih =>
    intro ds hds
    rw [casLoop] at hds
    simp only [dif_pos hlt, if_neg hat, hsl, if_neg hlen, if_neg hkn, if_pos hpar,
      if_pos hdep] at hds
    obtain ⟨r, hrec, rfl⟩ := Option.map_eq_some'.mp hds
    intro d hd
    rcases List.mem_cons.mp hd with rfl | hd
    · rfl
    · exact ih r hrec d hd
  | case7 x hlt hat inner hsl hlen hkn hpar hdep hsse hsl2 =>
    intro ds hds
    rw [casLoop] at hds
    simp only [dif_pos hlt, if_neg hat, hsl, if_neg hlen, if_neg hkn, if_pos hpar,
      if_neg hdep, if_pos hsse, hsl2] at hds
    cases hds
  | case8 x hlt hat inner hsl hlen hkn hpar hdep hsse args hsl2 hemp ih =>
    intro ds hds
    rw [casLoop] at hds
    simp only [dif_pos hlt, if_neg hat, hsl, if_neg hlen, if_neg hkn, if_pos hpar,
      if_neg hdep, if_pos hsse, hsl2, if_pos hemp] at hds
    obtain ⟨r, hrec, rfl⟩ := Option.map_eq_some'.mp hds
    intro d hd
    rcases List.mem_cons.mp hd with rfl | hd
    · rfl
    · exact ih r hrec d hd
  | case9 x hlt hat inner hsl hlen hkn hpar hdep hsse args hsl2 hne hlu =>
    intro ds hds
    rw [casLoop] at hds
    simp only [dif_pos hlt, if_neg hat, hsl, if_neg hlen, if_neg hkn, if_pos hpar,
      if_neg hdep, if_pos hsse, hsl2, if_neg hne, hlu] at hds
    cases hds
  | case10 x hlt hat inner hsl hlen hkn hpar hdep hsse args hsl2 hne b hlu hshape ih =>
    intro ds hds
    rw [casLoop] at hds
    simp only [dif_pos hlt, if_neg hat, hsl, if_neg hlen, if_neg hkn, if_pos hpar,
      if_neg hdep, if_pos hsse, hsl2, if_neg hne, hlu, if_pos hshape] at hds
    obtain ⟨r, hrec, rfl⟩ := Option.map_eq_some'.mp hds
    intro d hd
    rcases List.mem_cons.mp hd with rfl | hd
    · rfl
    · exact ih r hrec d hd
  | case11 x hlt hat inner hsl hlen hkn hpar hdep hsse args hsl2 hne b hlu hshape ih =>
    intro ds hds
    rw [casLoop] at hds
    simp only [dif_pos hlt, if_neg hat, hsl, if_neg hlen, if_neg hkn, if_pos hpar,
      if_neg hdep, if_pos hsse, hsl2, if_neg hne, hlu, if_neg hshape] at hds
    exact ih ds hds
  | case12 x hlt hat inner hsl hlen hkn hpar hdep hnsse ih =>
    intro ds hds
    rw [casLoop] at hds
    simp only [dif_pos hlt, if_neg hat, hsl, if_neg hlen, if_neg hkn, if_pos hpar,
      if_neg hdep, if_neg hnsse] at hds
    exact ih ds hds
  | case13 x hlt hat inner hsl hlen hkn hnpar ih =>
    intro ds hds
    rw [casLoop] at hds
    simp only [dif_pos hlt, if_neg hat, hsl, if_neg hlen, if_neg hkn, if_neg hnpar] at hds
    obtain ⟨r, hrec, rfl⟩ := Option.map_eq_some'.mp hds
    intro d hd
    rcases List.mem_cons.mp hd with rfl | hd
    · rfl
    · exact ih r hrec d hd
  | case14 x hlt =>
    intro ds hds
    rw [casLoop] at hds
    simp only [dif_neg hlt, Option.some_inj] at hds
    subst hds
    intro d hd
    exact absurd hd (List.not_mem_nil d)

theorem check_actions_rule (t : ParsedTag) :
    ∀ ds, check_actions t = some ds →
      ∀ d ∈ ds, d.rule = str "datastar/action-syntax" := by
  rw [check_actions]
  induction t.attributes using check_actions_go.induct with
  | case1 =>
    intro ds hds
    rw [check_actions_go] at hds
    cases hds
    intro d hd
    exact absurd hd (List.not_mem_nil d)
  | case2 attr rest hda v hv hcas =>
    intro ds hds
    rw [check_actions_go] at hds
    simp only [if_pos hda, hv, hcas] at hds
    cases hds
  | case3 attr rest hda v hv ds1 hcas hrest ih =>
    intro ds hds
    rw [check_actions_go] at hds
    simp only [if_pos hda, hv, hcas, hrest] at hds
    cases hds
  | case4 attr rest hda v hv ds1 hcas ds2 hrest ih =>
    intro ds hds
    rw [check_actions_go] at hds
    simp only [if_pos hda, hv, hcas, hrest, Option.some_inj] at hds
    subst hds
    intro d hd
    rcases List.mem_append.mp hd with hd | hd
    · exact casLoop_rule v attr 0 ds1 hcas d hd
    · exact ih ds2 hrest d hd
  | case5 attr rest hda hv ih =>
    intro ds hds
    rw [check_actions_go] at hds
    simp only [if_pos hda, hv] at hds
    exact ih ds hds
  | case6 attr rest hda ih =>
    intro ds hds
    rw [check_actions_go] at hds
    simp only [if_neg hda] at hds
    exact ih ds hds

theorem mapOpt_mem_some {α β : Type} (f : α → Option β) (l : List α)
    (ys : List β) (h : mapOpt f l = some ys) :
    ∀ a ∈ l, ∃ g, f a = some g := by
  induction l generalizing ys with
  | nil => intro a ha; exact absurd ha (List.not_mem_nil a)
  | cons x xs ih =>
    rw [mapOpt] at h
    cases hfx : f x with
    | none => rw [hfx] at h; cases h
    | some y =>
      rw [hfx] at h
      cases hmx : mapOpt f xs with
      | none => rw [hmx] at h; cases h
      | some ys2 =>
        intro a ha
        rcases List.mem_cons.mp ha with rfl | ha
        · exact ⟨y, hfx⟩
        · exact ih ys2 hmx a ha

theorem perTagDiags_some_iff (cfg : DatastarConfig) (t : ParsedTag)
    (g : List Diagnostic) :
    perTagDiags cfg t = some g ↔
      ∃ da, (if cfg.check_actions then check_actions t else some []) = some da ∧
        g = (if cfg.check_alpine_vue then check_alpine_vue t else []) ++
            (if cfg.check_required_values then check_required_values t else []) ++
            (if cfg.check_for_template then check_for_on_template t else []) ++
            (if cfg.check_typos then check_typos t else []) ++
            (if cfg.check_modifiers then check_modifiers t else []) ++ da := by
  rw [perTagDiags]
  cases hda : (if cfg.check_actions then check_actions t else some []) with
  | none =>
    simp only []
    constructor
    · intro hc; cases hc
    · rintro ⟨da, hda2, rfl⟩; cases hda2
  | some da =>
    simp only [Option.some_inj]
    constructor
    · intro hg; exact ⟨da, rfl, hg.symm⟩
    · rintro ⟨da2, hda2, rfl⟩
      cases hda2
      rfl

theorem base_attr_name_prefix_self (n : List Char) : base_attr_name n <+: n := by
  rw [base_attr_name]
  cases hf : findDelim n with
  | none => exact List.prefix_rfl
  | some p => exact List.take_prefix p n

theorem stripPfx_eq_some (p s x : List Char) :
    stripPfx p s = some x ↔ s = p ++ x := by
  rw [stripPfx]
  split
  · rename_i hpre
    rw [List.isPrefixOf_iff_prefix] at hpre
    obtain ⟨t, rfl⟩ := hpre
    simp [List.drop_left]
  · rename_i hpre
    constructor
    · intro hc; cases hc
    · rintro rfl
      rw [List.isPrefixOf_iff_prefix] at hpre
      exact absurd ⟨x, rfl⟩ hpre

theorem typos_table_keys_data (q : List Char × List Char) (hq : q ∈ TYPOS) :
    (str "data-").isPrefixOf q.1 = true := by
  fin_cases hq <;> decide

theorem check_prefix_separator_nil (attr : ParsedAttribute) (wrong correct : List Char)
    (h : ¬ wrong.isPrefixOf (base_attr_name attr.name) = true) :
    check_prefix_separator attr wrong correct = [] := by
  rw [check_prefix_separator, if_neg]
  simpa using h

/-- A quote character absent from the rest of the scanned text forces the
spec-side skip to consume everything. -/
theorem specSkipQuote_not_mem (q : Char) (l : List Char) (hq : q ∉ l) :
    specSkipQuote q l = [] := by
  induction l using specSkipQuote.induct q with
  | case1 => simp [specSkipQuote]
  | case2 l he hx =>
    exfalso
    apply hq
    rw [← hx, headD0]
    cases l with
    | nil => exact absurd rfl he
    | cons c r => exact List.mem_cons_self c r
  | case3 l he hx hb ih =>
    rw [specSkipQuote, dif_neg he, if_neg hx, if_pos hb]
    apply ih
    intro hcon
    exact hq (List.mem_of_mem_tail (List.mem_of_mem_tail hcon))
  | case4 l he hx hb ih =>
    rw [specSkipQuote, dif_neg he, if_neg hx, if_neg hb]
    apply ih
    intro hcon
    exact hq (List.mem_of_mem_tail hcon)


/-!
## Claim theorems
-/

/-- C1: the spec demands that no span arithmetic or slicing performed during a
lint call can panic past the lint call boundary, but the code violates this:
on the input `<div data-on:click="@get(',')">` the quote-aware parenthesis
scan yields the first argument `'` (a lone quote character), and
`looks_like_url` then evaluates `&"'"[1..0]`, a slice whose start exceeds its
end, which panics in Rust.  In the embedding the panicking slice is the
checked `slice?`, and the whole lint call evaluates to `none`. -/
theorem c1_lint_panics_on_lone_quote_argument :
    lint defaultConfig (str "test.html") (str "<div data-on:click=\"@get(',')\">") =
      none ∧
    looks_like_url (str "'") = none := by
  constructor
  · simp [lint, lintTags, parse_tags, parse_tags_go, parseAttrs, parseAttrValue, attrStart,
    attrNameEnd, tagNameStart, tagNameEnd, skipClosingSlash, eqPos, valStartPos, quotedEnd,
    unquotedEnd, skipWhile, findSubFrom, findCharFrom, byteAt, sliceStr, slice?, str,
    is_space, is_tag_name_char, is_attr_name_char, check_alpine_vue, is_alpine_or_vue_attr,
    check_required_values, requires_value, attrHasValue, check_for_on_template, toLowercase,
    check_typos, perAttrTypos, TYPOS, is_valid_hyphen_event, check_prefix_separator,
    base_attr_name, findDelim, extract_modifiers, extractModsGo_eq_some, extractModsGo_eq_none,
    check_modifiers, perModifier, get_valid_modifiers, stripPfx, is_timing_modifier,
    parses_as_f64, f64Body, expOk, expDigitsOk, EVENT_MODIFIERS, INTERSECT_MODIFIERS,
    PERSIST_MODIFIERS, INIT_MODIFIERS, CASE_MODIFIERS, check_actions, check_actions_go,
    check_action_syntax, casLoop, actionNameEnd, spaceEnd, parenScan, quoteSkip, SSE_ACTIONS,
    PRO_ACTIONS, ALL_ACTIONS, find_similar_action, isSubstring, rustTrim, rustIsWhitespace,
    looks_like_url, looks_like_expression, actionSpan, unknownActionDiag, requiresParensDiag,
    unclosedParensDiag, urlRequiredDiag, urlShapeDiag, is_datastar_attr, defaultConfig,
    is_action_char] <;> decide
  · simp [lint, lintTags, parse_tags, parse_tags_go, parseAttrs, parseAttrValue, attrStart,
    attrNameEnd, tagNameStart, tagNameEnd, skipClosingSlash, eqPos, valStartPos, quotedEnd,
    unquotedEnd, skipWhile, findSubFrom, findCharFrom, byteAt, sliceStr, slice?, str,
    is_space, is_tag_name_char, is_attr_name_char, check_alpine_vue, is_alpine_or_vue_attr,
    check_required_values, requires_value, attrHasValue, check_for_on_template, toLowercase,
    check_typos, perAttrTypos, TYPOS, is_valid_hyphen_event, check_prefix_separator,
    base_attr_name, findDelim, extract_modifiers, extractModsGo_eq_some, extractModsGo_eq_none,
    check_modifiers, perModifier, get_valid_modifiers, stripPfx, is_timing_modifier,
    parses_as_f64, f64Body, expOk, expDigitsOk, EVENT_MODIFIERS, INTERSECT_MODIFIERS,
    PERSIST_MODIFIERS, INIT_MODIFIERS, CASE_MODIFIERS, check_actions, check_actions_go,
    check_action_syntax, casLoop, actionNameEnd, spaceEnd, parenScan, quoteSkip, SSE_ACTIONS,
    PRO_ACTIONS, ALL_ACTIONS, find_similar_action, isSubstring, rustTrim, rustIsWhitespace,
    looks_like_url, looks_like_expression, actionSpan, unknownActionDiag, requiresParensDiag,
    unclosedParensDiag, urlRequiredDiag, urlShapeDiag, is_datastar_attr, defaultConfig,
    is_action_char] <;> decide

/-- C3 counterexample: the round-trip `base + (delimiter + modifier)* ==
original name` fails on a name that ends with the delimiter: for
`data-for__` the trailing empty modifier is dropped, so reassembly gives
`data-for`, not `data-for__`. -/
theorem c3_counterexample :
    ¬ reassemble (str "data-for__") = str "data-for__" ∧
    extract_modifiers (str "data-for__") = [] ∧
    base_attr_name (str "data-for__") = str "data-for" ∧
    reassemble (str "data-for__") = str "data-for" := by
  refine ⟨?_, ?_, ?_, ?_⟩ <;>
    simp [reassemble, base_attr_name, extract_modifiers, extractModsGo_eq_none,
      extractModsGo_eq_some, findDelim, str]

/-- C3 (amended): reassembling `base_attr_name n` with `extract_modifiers n`
joined by the `__` delimiter reproduces `n` exactly, except that a trailing
delimiter run whose final segment is empty loses one trailing `__` (the
dropped empty modifier); a name with no `__` occurrence has an empty modifier
sequence and is its own base. -/
theorem c3_roundtrip_amended :
    ∀ name : List Char,
      (reassemble name = name ∨ reassemble name ++ str "__" = name) ∧
      (findDelim name = none →
        base_attr_name name = name ∧ extract_modifiers name = []) := by
  intro name
  refine ⟨reassemble_eq_or_drop name, fun h => ?_⟩
  rw [base_attr_name, extract_modifiers, h]
  exact ⟨rfl, rfl⟩

/-- Witness for C3: the amended round-trip applied to the delimiter-free name
`data-show`. -/
theorem c3_witness :
    (reassemble (str "data-show") = str "data-show" ∨
      reassemble (str "data-show") ++ str "__" = str "data-show") ∧
    (base_attr_name (str "data-show") = str "data-show" ∧
      extract_modifiers (str "data-show") = []) :=
  ⟨(c3_roundtrip_amended (str "data-show")).1,
   (c3_roundtrip_amended (str "data-show")).2 (by decide)⟩

/-- C6: lint with the default configuration applied to
`<button data-on:click="@get">` returns exactly one diagnostic; its rule
identifier (within the `datastar` decree) is `datastar/action-syntax` and its
message contains "requires parentheses". -/
theorem c6_bare_action_requires_parens :
    lint defaultConfig (str "test.html") (str "<button data-on:click=\"@get\">") =
      some [⟨str "datastar/action-syntax",
        str "Action '@get' requires parentheses, e.g., @get('/path')", false, ⟨23, 27⟩⟩] ∧
    str "requires parentheses" <:+:
      str "Action '@get' requires parentheses, e.g., @get('/path')" := by
  constructor
  · simp [lint, lintTags, parse_tags, parse_tags_go, parseAttrs, parseAttrValue, attrStart,
    attrNameEnd, tagNameStart, tagNameEnd, skipClosingSlash, eqPos, valStartPos, quotedEnd,
    unquotedEnd, skipWhile, findSubFrom, findCharFrom, byteAt, sliceStr, slice?, str,
    is_space, is_tag_name_char, is_attr_name_char, check_alpine_vue, is_alpine_or_vue_attr,
    check_required_values, requires_value, attrHasValue, check_for_on_template, toLowercase,
    check_typos, perAttrTypos, TYPOS, is_valid_hyphen_event, check_prefix_separator,
    base_attr_name, findDelim, extract_modifiers, extractModsGo_eq_some, extractModsGo_eq_none,
    check_modifiers, perModifier, get_valid_modifiers, stripPfx, is_timing_modifier,
    parses_as_f64, f64Body, expOk, expDigitsOk, EVENT_MODIFIERS, INTERSECT_MODIFIERS,
    PERSIST_MODIFIERS, INIT_MODIFIERS, CASE_MODIFIERS, check_actions, check_actions_go,
    check_action_syntax, casLoop, actionNameEnd, spaceEnd, parenScan, quoteSkip, SSE_ACTIONS,
    PRO_ACTIONS, ALL_ACTIONS, find_similar_action, isSubstring, rustTrim, rustIsWhitespace,
    looks_like_url, looks_like_expression, actionSpan, unknownActionDiag, requiresParensDiag,
    unclosedParensDiag, urlRequiredDiag, urlShapeDiag, is_datastar_attr, defaultConfig,
    is_action_char] <;> decide
  · exact ⟨str "Action '@get' ", str ", e.g., @get('/path')", by decide⟩

/-- C8: `lint` is a pure function of the source text alone — the path
argument is never read, so any two paths give identical results, repeated
runs agree, and each checker is a pure function of the tag (running it twice
on the same tag with two fresh sinks yields the same diagnostic sequence). -/
theorem c8_lint_pure_deterministic :
    (∀ (cfg : DatastarConfig) (p1 p2 s : List Char), lint cfg p1 s = lint cfg p2 s) ∧
    (∀ (cfg : DatastarConfig) (p s : List Char), lint cfg p s = lint cfg p s) ∧
    (∀ t : ParsedTag,
      check_alpine_vue t = check_alpine_vue t ∧
      check_required_values t = check_required_values t ∧
      check_for_on_template t = check_for_on_template t ∧
      check_typos t = check_typos t ∧
      check_modifiers t = check_modifiers t ∧
      check_actions t = check_actions t) :=
  ⟨fun _ _ _ _ => rfl, fun _ _ _ => rfl, fun _ => ⟨rfl, rfl, rfl, rfl, rfl, rfl⟩⟩

/-- C10: for every configuration subset and every input, the lint output is
grouped by tag in document order, with each tag's group being the six
checkers' outputs concatenated in the fixed dispatch order (`perTagDiags`:
no-alpine-vue-attrs, require-value, for-template, typo, invalid-modifier,
action-syntax), and each checker's output is its per-attribute diagnostics in
attribute order (each checker is defined as the flattening of its
per-attribute results). -/
theorem c10_diagnostic_order :
    (∀ (cfg : DatastarConfig) (path s : List Char),
      lint cfg path s = (mapOpt (perTagDiags cfg) (parse_tags s)).map List.flatten) ∧
    (∀ t : ParsedTag, check_typos t = (t.attributes.map perAttrTypos).flatten) ∧
    (∀ t : ParsedTag, check_alpine_vue t =
      (t.attributes.map fun attr =>
        if is_alpine_or_vue_attr attr.name then
          [⟨str "datastar/no-alpine-vue-attrs",
            str "Disallowed Alpine/Vue-style attribute: " ++ attr.name, false,
            ⟨attr.name_start, attr.name_end⟩⟩]
        else []).flatten) := by
  refine ⟨fun cfg path s => ?_, fun t => rfl, fun t => rfl⟩
  rw [lint, lintTags_eq_mapOpt]

/-- C2: the Action Syntax Validator's quote-aware parenthesis scan agrees
with the spec's balance predicate: entering with depth 1, the scan's final
depth is zero iff the remaining text has balanced parentheses when
parentheses inside matched quoted spans (quotes `"`, `'`, `` ` ``, backslash
escaping the following byte) are ignored (`specBalanced`, written from the
spec's words).  `casLoop` pushes the "Unclosed parentheses" diagnostic and
aborts the call's analysis exactly when the final depth is non-zero, so a
balanced call gets no such diagnostic.  A quote opened and never matched
before end of input forces the unbalanced outcome — the scan never falsely
reports balance. -/
theorem c2_paren_quote_balance :
    (∀ (value : List Char) (j : Nat),
      ((parenScan value j 1).2 = 0) ↔ specBalanced (value.drop j) = true) ∧
    (∀ (value : List Char) (i : Nat) (q : Char) (rest : List Char),
      (q = '"' ∨ q = '\'' ∨ q = '`') → value.drop i = q :: rest → q ∉ rest →
      ¬ (parenScan value i 1).2 = 0) := by
  constructor
  · intro value j
    rw [specBalanced]
    exact parenScan_eq_specBalanced value j 1 one_pos
  · intro value i q rest hq hdrop hmem
    rw [parenScan_eq_specBalanced value i 1 one_pos, hdrop, specBalancedGo,
      dif_neg (by simp : ¬ (q :: rest : List Char) = [])]
    have hh : headD0 (q :: rest) = q := rfl
    rw [hh, if_neg (by rcases hq with rfl | rfl | rfl <;> decide),
      if_neg (by rcases hq with rfl | rfl | rfl <;> decide), if_pos hq]
    have ht : (q :: rest).tail = rest := rfl
    rw [ht, specSkipQuote_not_mem q rest hmem, specBalancedGo, dif_pos rfl]
    simp

/-- Witness for C2: the unmatched quote in `@get('` leaves the scan
unbalanced. -/
theorem c2_witness :
    ¬ (parenScan (str "@get('") 5 1).2 = 0 :=
  c2_paren_quote_balance.2 (str "@get('") 5 '\'' [] (Or.inr (Or.inl rfl))
    (by decide) (by decide)

/-- C9: a modifier token whose text before the first `.` equals `case`
bypasses the family allow-list entirely — for every family, including those
with an empty allow-list such as `data-show`, the validator never emits the
family allow-list diagnostic for it; such a token yields a diagnostic iff it
is `case.X` with `X` outside {camel, kebab, snake, pascal}, and then only the
"Invalid case modifier" diagnostic; a bare `case` token with no `.` suffix
yields no diagnostic at all. -/
theorem c9_case_modifier_bypass :
    ∀ (base : List Char) (valid : List (List Char)) (attr : ParsedAttribute)
      (modifier : List Char),
      modifier.takeWhile (fun c => ¬ c = '.') = str "case" →
      (∀ d ∈ perModifier base valid attr modifier,
        ∃ x, modifier = str "case." ++ x ∧ ¬ x ∈ CASE_MODIFIERS ∧
          d = ⟨str "datastar/invalid-modifier",
            str "Invalid case modifier '" ++ x ++
              str "'. Valid options: camel, kebab, snake, pascal",
            false, ⟨attr.name_start, attr.name_end⟩⟩) ∧
      (¬ perModifier base valid attr modifier = [] ↔
        ∃ x, modifier = str "case." ++ x ∧ ¬ x ∈ CASE_MODIFIERS) ∧
      (modifier = str "case" → perModifier base valid attr modifier = []) := by
  intro base valid attr modifier hcase
  rw [perModifier, if_pos hcase]
  cases hsp : stripPfx (str "case.") modifier with
  | none =>
    refine ⟨?_, ?_, ?_⟩
    · intro d hd
      exact absurd hd (List.not_mem_nil d)
    · constructor
      · intro hc
        exact absurd rfl hc
      · rintro ⟨x, hx, hx2⟩
        have hsome := (stripPfx_eq_some (str "case.") modifier x).mpr hx
        rw [hsp] at hsome
        cases hsome
    · intro _
      rfl
  | some x =>
    dsimp only
    have hx : modifier = str "case." ++ x := (stripPfx_eq_some _ _ _).mp hsp
    by_cases hmem : x ∈ CASE_MODIFIERS
    · rw [if_neg (by simpa using hmem)]
      refine ⟨?_, ?_, ?_⟩
      · intro d hd
        exact absurd hd (List.not_mem_nil d)
      · constructor
        · intro hc
          exact absurd rfl hc
        · rintro ⟨y, hy, hy2⟩
          rw [hx] at hy
          have hxy : x = y := List.append_cancel_left hy
          exact absurd (hxy ▸ hmem) hy2
      · intro _
        rfl
    · rw [if_pos (by simpa using hmem)]
      refine ⟨?_, ?_, ?_⟩
      · intro d hd
        rw [List.mem_singleton] at hd
        exact ⟨x, hx, hmem, hd⟩
      · constructor
        · intro _
          exact ⟨x, hx, hmem⟩
        · intro _
          simp
      · intro hcm
        rw [hcm] at hx
        simp [str] at hx

/-- Witness for C9: a bare `case` modifier on an empty-allow-list family
produces no diagnostic. -/
theorem c9_witness :
    perModifier (str "data-show") [] ⟨str "a", none, 0, 1, none, none⟩ (str "case") = [] :=
  (c9_case_modifier_bypass (str "data-show") [] ⟨str "a", none, 0, 1, none, none⟩
    (str "case") (by decide)).2.2 rfl


/-- C4: every attribute the tokenizer returns has in-bounds spans
(`0 ≤ name_start ≤ name_end ≤ length source`, and likewise for a present
value span), the substring of the source at the name span is exactly the
attribute's reported name, and the substring at the value span is exactly the
reported value — for quoted values the span covers exactly the inner content,
the quotes excluded, since the reported value is the text strictly between
the quotes. -/
theorem c4_span_validity :
    ∀ (s : List Char) (t : ParsedTag) (a : ParsedAttribute),
      t ∈ parse_tags s → a ∈ t.attributes →
      a.name_start ≤ a.name_end ∧ a.name_end ≤ s.length ∧
        sliceStr s a.name_start a.name_end = a.name ∧
        ∀ v vs ve, a.value = some v → a.value_start = some vs →
          a.value_end = some ve →
          vs ≤ ve ∧ ve ≤ s.length ∧ sliceStr s vs ve = v := by
  intro s t a ht ha
  obtain ⟨h1, h2, h3, h4⟩ := parse_tags_wf s t ht a ha
  refine ⟨h1, h2, h3.symm, ?_⟩
  intro v vs ve hv hvs hve
  rw [hv, hvs, hve] at h4
  exact ⟨h4.1, h4.2.1, h4.2.2.symm⟩

/-- Witness for C4: the attribute `b="c"` of `<a b="c">`. -/
theorem c4_witness :
    (3 : Nat) ≤ 4 ∧ 4 ≤ (str "<a b=\"c\">").length ∧
      sliceStr (str "<a b=\"c\">") 3 4 = str "b" ∧
      (∀ v vs ve, (some (str "c") : Option (List Char)) = some v →
        (some 6 : Option Nat) = some vs → (some 7 : Option Nat) = some ve →
        vs ≤ ve ∧ ve ≤ (str "<a b=\"c\">").length ∧
          sliceStr (str "<a b=\"c\">") vs ve = v) :=
  c4_span_validity (str "<a b=\"c\">")
    ⟨str "a", [⟨str "b", some (str "c"), 3, 4, some 6, some 7⟩]⟩
    ⟨str "b", some (str "c"), 3, 4, some 6, some 7⟩
    (by simp [parse_tags, parse_tags_go, parseAttrs, parseAttrValue, attrStart,
    attrNameEnd, tagNameStart, tagNameEnd, skipClosingSlash, eqPos, valStartPos, quotedEnd,
    unquotedEnd, skipWhile, findSubFrom, findCharFrom, byteAt, sliceStr, str,
    is_space, is_tag_name_char, is_attr_name_char]) (by simp)


theorem perAttrTypos_eq_nil_of (attr : ParsedAttribute) (b : List Char)
    (hb : base_attr_name attr.name = b)
    (hdn : (str "data-").isPrefixOf b = true)
    (hfind : TYPOS.find? (fun q => q.1 = b) = none)
    (hcol : ¬ ((str "data-on-").isPrefixOf b = true ∧
      ¬ is_valid_hyphen_event b = true))
    (hs1 : ¬ (str "data-bind-").isPrefixOf b = true)
    (hs2 : ¬ (str "data-attr-").isPrefixOf b = true)
    (hs3 : ¬ (str "data-class-").isPrefixOf b = true)
    (hs4 : ¬ (str "data-style-").isPrefixOf b = true)
    (hs5 : ¬ (str "data-indicator-").isPrefixOf b = true) :
    perAttrTypos attr = [] := by
  have hdn2 : (str "data-").isPrefixOf attr.name = true :=
    List.isPrefixOf_iff_prefix.mpr
      (List.IsPrefix.trans (List.isPrefixOf_iff_prefix.mp (hb ▸ hdn))
        (base_attr_name_prefix_self attr.name))
  rw [perAttrTypos, if_neg (not_not_intro hdn2)]
  simp only [hb]
  rw [hfind]
  dsimp only
  rw [if_neg hcol,
    check_prefix_separator_nil attr (str "data-bind-") (str "data-bind:") (by rw [hb]; exact hs1),
    check_prefix_separator_nil attr (str "data-attr-") (str "data-attr:") (by rw [hb]; exact hs2),
    check_prefix_separator_nil attr (str "data-class-") (str "data-class:") (by rw [hb]; exact hs3),
    check_prefix_separator_nil attr (str "data-style-") (str "data-style:") (by rw [hb]; exact hs4),
    check_prefix_separator_nil attr (str "data-indicator-") (str "data-indicator:")
      (by rw [hb]; exact hs5)]
  simp

/-- C7: an attribute whose base name exactly matches an entry of the typo
table gets exactly that one `typo` diagnostic (the hit stops all further typo
checks, so no separator diagnostic accompanies it); an attribute whose base
name is in the allow-list of legitimate hyphenated `data-on-` events gets no
separator diagnostic (and no typo diagnostic at all); and
`<div data-intersects="@get('/foo')">` yields exactly the `typo` diagnostic
mentioning `data-on-intersect`. -/
theorem c7_typo_table :
    (∀ (attr : ParsedAttribute) (p : List Char × List Char),
      TYPOS.find? (fun q => q.1 = base_attr_name attr.name) = some p →
      perAttrTypos attr = [⟨str "datastar/typo",
        str "Possible typo: '" ++ p.1 ++ str "' - did you mean '" ++ p.2 ++ str "'?",
        false, ⟨attr.name_start, attr.name_end⟩⟩]) ∧
    (∀ attr : ParsedAttribute,
      is_valid_hyphen_event (base_attr_name attr.name) = true →
      perAttrTypos attr = []) ∧
    (lint defaultConfig (str "t.html") (str "<div data-intersects=\"@get('/foo')\">") =
      some [⟨str "datastar/typo",
        str "Possible typo: 'data-intersects' - did you mean 'data-on-intersect'?",
        false, ⟨5, 20⟩⟩] ∧
     str "data-on-intersect" <:+:
       str "Possible typo: 'data-intersects' - did you mean 'data-on-intersect'?") := by
  refine ⟨?_, ?_, ?_, ?_⟩
  · intro attr p hfind
    have hp0 := List.find?_some hfind
    simp only [decide_eq_true_eq] at hp0
    have hp1 : p.1 = base_attr_name attr.name := hp0
    have hpmem : p ∈ TYPOS := List.mem_of_find?_eq_some hfind
    have hdata : (str "data-").isPrefixOf p.1 = true := typos_table_keys_data p hpmem
    have hdn2 : (str "data-").isPrefixOf attr.name = true :=
      List.isPrefixOf_iff_prefix.mpr
        (List.IsPrefix.trans (List.isPrefixOf_iff_prefix.mp (hp1 ▸ hdata))
          (base_attr_name_prefix_self attr.name))
    rw [perAttrTypos, if_neg (not_not_intro hdn2), hfind]
  · intro attr hval
    have hval2 := hval
    rw [is_valid_hyphen_event] at hval2
    simp only [decide_eq_true_eq] at hval2
    rcases hval2 with h | h | h | h | h | h <;>
      exact perAttrTypos_eq_nil_of attr _ h (by decide) (by decide) (by decide)
        (by decide) (by decide) (by decide) (by decide) (by decide)
  · simp [lint, lintTags, parse_tags, parse_tags_go, parseAttrs, parseAttrValue, attrStart,
    attrNameEnd, tagNameStart, tagNameEnd, skipClosingSlash, eqPos, valStartPos, quotedEnd,
    unquotedEnd, skipWhile, findSubFrom, findCharFrom, byteAt, sliceStr, slice?, str,
    is_space, is_tag_name_char, is_attr_name_char, check_alpine_vue, is_alpine_or_vue_attr,
    check_required_values, requires_value, attrHasValue, check_for_on_template, toLowercase,
    check_typos, perAttrTypos, TYPOS, is_valid_hyphen_event, check_prefix_separator,
    base_attr_name, findDelim, extract_modifiers, extractModsGo_eq_some, extractModsGo_eq_none,
    check_modifiers, perModifier, get_valid_modifiers, stripPfx, is_timing_modifier,
    parses_as_f64, f64Body, expOk, expDigitsOk, EVENT_MODIFIERS, INTERSECT_MODIFIERS,
    PERSIST_MODIFIERS, INIT_MODIFIERS, CASE_MODIFIERS, check_actions, check_actions_go,
    check_action_syntax, casLoop, actionNameEnd, spaceEnd, parenScan, quoteSkip, SSE_ACTIONS,
    PRO_ACTIONS, ALL_ACTIONS, find_similar_action, isSubstring, rustTrim, rustIsWhitespace,
    looks_like_url, looks_like_expression, actionSpan, unknownActionDiag, requiresParensDiag,
    unclosedParensDiag, urlRequiredDiag, urlShapeDiag, is_datastar_attr, defaultConfig,
    is_action_char] <;> decide
  · exact ⟨str "Possible typo: 'data-intersects' - did you mean '", str "'?", by decide⟩

/-- Witness for C7: the table hit `data-intersects` and the allow-listed
hyphenated event `data-on-load`. -/
theorem c7_witness :
    perAttrTypos ⟨str "data-intersects", none, 0, 15, none, none⟩ =
      [⟨str "datastar/typo",
        str "Possible typo: 'data-intersects' - did you mean 'data-on-intersect'?",
        false, ⟨0, 15⟩⟩] ∧
    perAttrTypos ⟨str "data-on-load", none, 0, 12, none, none⟩ = [] :=
  ⟨c7_typo_table.1 ⟨str "data-intersects", none, 0, 15, none, none⟩
     (str "data-intersects", str "data-on-intersect") (by decide),
   c7_typo_table.2.1 ⟨str "data-on-load", none, 0, 12, none, none⟩ (by decide)⟩


theorem perTagDiags_default_iff (t : ParsedTag) (g : List Diagnostic) :
    perTagDiags defaultConfig t = some g ↔
      ∃ da, check_actions t = some da ∧
        g = check_alpine_vue t ++ check_required_values t ++ check_for_on_template t ++
            check_typos t ++ check_modifiers t ++ da :=
  perTagDiags_some_iff defaultConfig t g

/-- C5 counterexample: the spec keys the for-template rule on the attribute's
base name, but the code compares the full attribute name: on
`<div data-for__once="x">` the attribute's base name is `data-for` and the
tag is not `template`, yet the lint run (which succeeds) emits no
`for-template` diagnostic. -/
theorem c5_counterexample :
    base_attr_name (str "data-for__once") = str "data-for" ∧
    ¬ toLowercase (str "div") = str "template" ∧
    parse_tags (str "<div data-for__once=\"x\">") =
      [⟨str "div", [⟨str "data-for__once", some (str "x"), 5, 19, some 21, some 22⟩]⟩] ∧
    (lint defaultConfig (str "test.html") (str "<div data-for__once=\"x\">")).map
        (List.filter (fun d => d.rule = str "datastar/for-template")) = some [] := by
  refine ⟨by decide, by decide, ?_, ?_⟩
  · simp [lint, lintTags, parse_tags, parse_tags_go, parseAttrs, parseAttrValue, attrStart,
    attrNameEnd, tagNameStart, tagNameEnd, skipClosingSlash, eqPos, valStartPos, quotedEnd,
    unquotedEnd, skipWhile, findSubFrom, findCharFrom, byteAt, sliceStr, slice?, str,
    is_space, is_tag_name_char, is_attr_name_char, check_alpine_vue, is_alpine_or_vue_attr,
    check_required_values, requires_value, attrHasValue, check_for_on_template, toLowercase,
    check_typos, perAttrTypos, TYPOS, is_valid_hyphen_event, check_prefix_separator,
    base_attr_name, findDelim, extract_modifiers, extractModsGo_eq_some, extractModsGo_eq_none,
    check_modifiers, perModifier, get_valid_modifiers, stripPfx, is_timing_modifier,
    parses_as_f64, f64Body, expOk, expDigitsOk, EVENT_MODIFIERS, INTERSECT_MODIFIERS,
    PERSIST_MODIFIERS, INIT_MODIFIERS, CASE_MODIFIERS, check_actions, check_actions_go,
    check_action_syntax, casLoop, actionNameEnd, spaceEnd, parenScan, quoteSkip, SSE_ACTIONS,
    PRO_ACTIONS, ALL_ACTIONS, find_similar_action, isSubstring, rustTrim, rustIsWhitespace,
    looks_like_url, looks_like_expression, actionSpan, unknownActionDiag, requiresParensDiag,
    unclosedParensDiag, urlRequiredDiag, urlShapeDiag, is_datastar_attr, defaultConfig,
    is_action_char] <;> decide
  · simp [lint, lintTags, parse_tags, parse_tags_go, parseAttrs, parseAttrValue, attrStart,
    attrNameEnd, tagNameStart, tagNameEnd, skipClosingSlash, eqPos, valStartPos, quotedEnd,
    unquotedEnd, skipWhile, findSubFrom, findCharFrom, byteAt, sliceStr, slice?, str,
    is_space, is_tag_name_char, is_attr_name_char, check_alpine_vue, is_alpine_or_vue_attr,
    check_required_values, requires_value, attrHasValue, check_for_on_template, toLowercase,
    check_typos, perAttrTypos, TYPOS, is_valid_hyphen_event, check_prefix_separator,
    base_attr_name, findDelim, extract_modifiers, extractModsGo_eq_some, extractModsGo_eq_none,
    check_modifiers, perModifier, get_valid_modifiers, stripPfx, is_timing_modifier,
    parses_as_f64, f64Body, expOk, expDigitsOk, EVENT_MODIFIERS, INTERSECT_MODIFIERS,
    PERSIST_MODIFIERS, INIT_MODIFIERS, CASE_MODIFIERS, check_actions, check_actions_go,
    check_action_syntax, casLoop, actionNameEnd, spaceEnd, parenScan, quoteSkip, SSE_ACTIONS,
    PRO_ACTIONS, ALL_ACTIONS, find_similar_action, isSubstring, rustTrim, rustIsWhitespace,
    looks_like_url, looks_like_expression, actionSpan, unknownActionDiag, requiresParensDiag,
    unclosedParensDiag, urlRequiredDiag, urlShapeDiag, is_datastar_attr, defaultConfig,
    is_action_char] <;> decide

/-- C5 (amended): a `for-template` diagnostic is emitted exactly for the
attributes whose full name (not base name) equals `data-for` and whose owning
tag is not, case-insensitively, `template`; in particular
`<div data-for="item in $items">` yields exactly one diagnostic, with rule
`datastar/for-template`. -/
theorem c5_for_template_full_name :
    (∀ (path s : List Char) (ds : List Diagnostic),
      lint defaultConfig path s = some ds →
      ∀ d : Diagnostic,
        (d ∈ ds ∧ d.rule = str "datastar/for-template") ↔
          ∃ t ∈ parse_tags s, ∃ a ∈ t.attributes,
            a.name = str "data-for" ∧ ¬ toLowercase t.name = str "template" ∧
            d = ⟨str "datastar/for-template",
              str "data-for must be on a <template> element, found on <" ++
                t.name ++ str ">",
              false, ⟨a.name_start, a.name_end⟩⟩) ∧
    lint defaultConfig (str "test.html") (str "<div data-for=\"item in $items\">") =
      some [⟨str "datastar/for-template",
        str "data-for must be on a <template> element, found on <div>", false, ⟨5, 13⟩⟩] := by
  constructor
  · intro path s ds hds d
    rw [lint, lintTags_eq_mapOpt] at hds
    cases hmo : mapOpt (perTagDiags defaultConfig) (parse_tags s) with
    | none => rw [hmo] at hds; cases hds
    | some gs =>
      rw [hmo] at hds
      simp only [Option.map_some', Option.some_inj] at hds
      subst hds
      constructor
      · rintro ⟨hmem, hrule⟩
        obtain ⟨t, ht, g, hg, hdg⟩ := (mapOpt_flatten_mem _ _ _ hmo d).mp hmem
        obtain ⟨da, hda, rfl⟩ := (perTagDiags_default_iff t g).mp hg
        rcases List.mem_append.mp hdg with hdg | hdg2
        rcases List.mem_append.mp hdg with hdg | hdg3
        rcases List.mem_append.mp hdg with hdg | hdg4
        rcases List.mem_append.mp hdg with hdg | hdg5
        rcases List.mem_append.mp hdg with hdg | hdg6
        · rw [check_alpine_vue_rule t d hdg] at hrule
          exact absurd hrule (by decide)
        · rw [check_required_values_rule t d hdg6] at hrule
          exact absurd hrule (by decide)
        · obtain ⟨a, ha, h1, h2, rfl⟩ := (mem_check_for_on_template t d).mp hdg5
          exact ⟨t, ht, a, ha, h1, h2, rfl⟩
        · rw [check_typos_rule t d hdg4] at hrule
          exact absurd hrule (by decide)
        · rw [check_modifiers_rule t d hdg3] at hrule
          exact absurd hrule (by decide)
        · rw [check_actions_rule t da hda d hdg2] at hrule
          exact absurd hrule (by decide)
      · rintro ⟨t, ht, a, ha, hname, htempl, rfl⟩
        refine ⟨?_, rfl⟩
        obtain ⟨g, hg⟩ := mapOpt_mem_some _ _ _ hmo t ht
        apply (mapOpt_flatten_mem _ _ _ hmo _).mpr
        refine ⟨t, ht, g, hg, ?_⟩
        obtain ⟨da, hda, rfl⟩ := (perTagDiags_default_iff t g).mp hg
        have hdft : (⟨str "datastar/for-template",
            str "data-for must be on a <template> element, found on <" ++
              t.name ++ str ">", false,
            ⟨a.name_start, a.name_end⟩⟩ : Diagnostic) ∈ check_for_on_template t :=
          (mem_check_for_on_template t _).mpr ⟨a, ha, hname, htempl, rfl⟩
        simp only [List.mem_append]
        exact Or.inl (Or.inl (Or.inl (Or.inr hdft)))
  · simp [lint, lintTags, parse_tags, parse_tags_go, parseAttrs, parseAttrValue, attrStart,
    attrNameEnd, tagNameStart, tagNameEnd, skipClosingSlash, eqPos, valStartPos, quotedEnd,
    unquotedEnd, skipWhile, findSubFrom, findCharFrom, byteAt, sliceStr, slice?, str,
    is_space, is_tag_name_char, is_attr_name_char, check_alpine_vue, is_alpine_or_vue_attr,
    check_required_values, requires_value, attrHasValue, check_for_on_template, toLowercase,
    check_typos, perAttrTypos, TYPOS, is_valid_hyphen_event, check_prefix_separator,
    base_attr_name, findDelim, extract_modifiers, extractModsGo_eq_some, extractModsGo_eq_none,
    check_modifiers, perModifier, get_valid_modifiers, stripPfx, is_timing_modifier,
    parses_as_f64, f64Body, expOk, expDigitsOk, EVENT_MODIFIERS, INTERSECT_MODIFIERS,
    PERSIST_MODIFIERS, INIT_MODIFIERS, CASE_MODIFIERS, check_actions, check_actions_go,
    check_action_syntax, casLoop, actionNameEnd, spaceEnd, parenScan, quoteSkip, SSE_ACTIONS,
    PRO_ACTIONS, ALL_ACTIONS, find_similar_action, isSubstring, rustTrim, rustIsWhitespace,
    looks_like_url, looks_like_expression, actionSpan, unknownActionDiag, requiresParensDiag,
    unclosedParensDiag, urlRequiredDiag, urlShapeDiag, is_datastar_attr, defaultConfig,
    is_action_char] <;> decide

/-- Witness for C5: the amended characterisation applied to
`<div data-for="item in $items">` and its one diagnostic. -/
theorem c5_witness :
    ((⟨str "datastar/for-template",
        str "data-for must be on a <template> element, found on <div>", false,
        ⟨5, 13⟩⟩ : Diagnostic) ∈
        [(⟨str "datastar/for-template",
          str "data-for must be on a <template> element, found on <div>", false,
          ⟨5, 13⟩⟩ : Diagnostic)] ∧
      (⟨str "datastar/for-template",
        str "data-for must be on a <template> element, found on <div>", false,
        (⟨5, 13⟩ : Span)⟩ : Diagnostic).rule = str "datastar/for-template") ↔
      ∃ t ∈ parse_tags (str "<div data-for=\"item in $items\">"), ∃ a ∈ t.attributes,
        a.name = str "data-for" ∧ ¬ toLowercase t.name = str "template" ∧
        (⟨str "datastar/for-template",
          str "data-for must be on a <template> element, found on <div>", false,
          ⟨5, 13⟩⟩ : Diagnostic) = ⟨str "datastar/for-template",
            str "data-for must be on a <template> element, found on <" ++
              t.name ++ str ">",
            false, ⟨a.name_start, a.name_end⟩⟩ :=
  c5_for_template_full_name.1 (str "test.html") (str "<div data-for=\"item in $items\">")
    [⟨str "datastar/for-template",
      str "data-for must be on a <template> element, found on <div>", false, ⟨5, 13⟩⟩]
    c5_for_template_full_name.2
    ⟨str "datastar/for-template",
      str "data-for must be on a <template> element, found on <div>", false, ⟨5, 13⟩⟩

end Datastar
